import Mathlib

/-!
# go2rtc: `internal/http` and `internal/mp4`

A shallow embedding of `handleHTTP` (source resolution over HTTP) and of the two
request handlers `handlerKeyframe` and `handlerMP4`, with the properties of the
specification stated over the embedding.

Conventions.

* A Go `string` is a byte sequence.  It is represented by a Lean `String` whose
  characters stand for the bytes; every literal of the source is ASCII and denotes
  itself.
* The standard library and the packages outside the two files (`net/http`, `tcp`,
  `mjpeg`, `rtmp`, `magic`, `streams`, `pkg/mp4`) are collaborators: their results are
  taken from a record of oracles, and the calls made to them are what is observed.
* A Go run-time fault (index out of range) is an outcome of its own, distinct from a
  returned `error` value.
-/

namespace Go2rtc

/-! ## Strings (Go package `strings`) -/

/-- Fields of a character list around every occurrence of `sep`; the list is never
empty and an empty input has the single field `[]`. -/
def splitOn (sep : Char) : List Char → List (List Char)
  | [] => [[]]
  | c :: cs =>
    if c = sep then [] :: splitOn sep cs
    else match splitOn sep cs with
      | [] => [[c]]
      | h :: t => (c :: h) :: t

/-- Go `strings.Split(s, sep)` for a one-byte separator. -/
def Split (s : String) (sep : Char) : List String :=
  (splitOn sep s.data).map String.mk

/-- Go `strings.HasPrefix` on character lists. -/
def startsWith : List Char → List Char → Bool
  | _, [] => true
  | [], _ :: _ => false
  | c :: cs, p :: ps => c == p && startsWith cs ps

/-- Scan for a position at which `sub` starts. -/
def containsAt (sub : List Char) : List Char → Bool
  | [] => sub.isEmpty
  | c :: cs => startsWith (c :: cs) sub || containsAt sub cs

/-- Go `strings.Contains(s, substr)`. -/
def Contains (s substr : String) : Bool :=
  containsAt substr.data s.data

/-- Position of the first `c` in a character list, `-1` when there is none. -/
def indexOf (c : Char) : List Char → Int
  | [] => -1
  | d :: ds => if d = c then 0 else
      let i := indexOf c ds
      if i < 0 then -1 else i + 1

/-- Go `strings.IndexByte(s, c)`. -/
def IndexByte (s : String) (c : Char) : Int :=
  indexOf c s.data

/-- Go slice expression `s[:i]` for `0 ≤ i ≤ len(s)`. -/
def sliceTo (s : String) (i : Int) : String :=
  String.mk (s.data.take i.toNat)

/-- Go `strings.Cut(s, sep)` for a one-byte separator: the text before the first
`sep`, the text after it, and whether `sep` was found. -/
def cutList (sep : Char) : List Char → List Char × List Char × Bool
  | [] => ([], [], false)
  | c :: cs =>
    if c = sep then ([], cs, true)
    else
      let r := cutList sep cs
      (c :: r.1, r.2.1, r.2.2)

/-- Go `strconv.Itoa` on a non-negative number. -/
def Itoa (n : Nat) : String := Nat.repr n

/-- Value of a non-empty run of decimal digits; `none` for anything else. -/
def digitsValue : List Char → Option Nat
  | [] => none
  | ds =>
    if ds.all Char.isDigit then
      some (ds.foldl (fun n c => 10 * n + (c.toNat - '0'.toNat)) 0)
    else none

/-- Go `strconv.Atoi(s)` with its error dropped (`i, _ := strconv.Atoi(s)`), for the
64-bit `int`: an optional sign and decimal digits; 0 on a syntax error, the nearest
bound of `int64` on a range error. -/
def Atoi (s : String) : Int :=
  let body := match s.data with
    | c :: t => if c = '-' ∨ c = '+' then t else c :: t
    | [] => []
  match digitsValue body with
  | none => 0
  | some n =>
    let v : Int := if s.data.head? = some '-' then -(n : Int) else n
    max (-9223372036854775808) (min 9223372036854775807 v)

/-- The value an `int64` holds after an arithmetic result `x`: `x` modulo `2^64`, in
the range from `-2^63` to `2^63 - 1`. -/
def wrapInt64 (x : Int) : Int :=
  (x + 9223372036854775808) % 18446744073709551616 - 9223372036854775808

/-- Go `textproto` `validHeaderFieldByte`: the token characters of a header name. -/
def validHeaderFieldByte (c : Char) : Bool :=
  c.isAlphanum || "!#$%&*+-.^_|~".data.contains c || c = Char.ofNat 39 || c = Char.ofNat 96

/-- The loop of Go `canonicalMIMEHeaderKey`: a letter is upper-cased at the start and
after a `-`, lower-cased elsewhere. -/
def canonicalize : Bool → List Char → List Char
  | _, [] => []
  | upper, c :: cs =>
    let c2 := if upper && c.isLower then c.toUpper
      else if !upper && c.isUpper then c.toLower else c
    c2 :: canonicalize (c2 == '-') cs

/-- Go `textproto.CanonicalMIMEHeaderKey`: a key with a byte that is no token
character is returned unchanged, every other key in canonical case. -/
def CanonicalMIMEHeaderKey (s : String) : String :=
  if s.data.all validHeaderFieldByte then String.mk (canonicalize true s.data) else s

/-- Go `http.Header`, as its entries. -/
abbrev HttpHeader := List (String × String)

/-- Go `Header.Set(key, value)`: the entry under the canonical form of the key is
replaced by the one value. -/
def HttpHeader.Set (h : HttpHeader) (key value : String) : HttpHeader :=
  (CanonicalMIMEHeaderKey key, value) ::
    h.filter (fun p => p.1 ≠ CanonicalMIMEHeaderKey key)

/-! ## Outcomes -/

/-- A Go `error` value, identified by its message (`err.Error()`). -/
structure GoError where
  msg : String
deriving DecidableEq, Repr

/-- How a call can fail: a run-time abort or a returned `error`. -/
inductive Fault where
  | indexOutOfRange (index len : Nat)
  | returned (err : GoError)
deriving DecidableEq, Repr

/-- Go index expression `xs[i]` on a slice: aborts when `i` is out of range. -/
def index (xs : List String) (i : Nat) : Except Fault String :=
  match xs[i]? with
  | some x => .ok x
  | none => .error (.indexOutOfRange i xs.length)

/-! ## `internal/http`: `handleHTTP` -/

/-- The response fields `handleHTTP` reads: `res.StatusCode`, `res.Status`, the
`Content-Type` header (`none` when absent) and the body, named by a number. -/
structure Response where
  StatusCode : Int
  Status : String
  ContentType : Option String
  Body : Nat
deriving DecidableEq, Repr

/-- Go `res.Header.Get("Content-Type")`: the empty string when the header is absent. -/
def Response.headerGetContentType (res : Response) : String :=
  res.ContentType.getD ""

/-- The request handed to `tcp.Do`: method, address and the entries of `req.Header`
(empty after `http.NewRequest`). -/
structure Request where
  method : String
  url : String
  Header : HttpHeader
deriving DecidableEq, Repr

/-- The three producer variants `handleHTTP` can return. -/
inductive Producer where
  | mjpeg (res : Response)
  | rtmp (conn : Nat)
  | magic (Desc URL : String) (body : Nat)
deriving DecidableEq, Repr

/-- Collaborators of `handleHTTP`: `http.NewRequest` (its error, if any), `tcp.Do`,
`rtmp.Accept`, `(*rtmp.Client).Describe` and `(*magic.Client).Probe`. -/
structure World where
  NewRequest : String → String → Option GoError
  Do : Request → Except GoError Response
  Accept : Response → Except GoError Nat
  Describe : Nat → Option GoError
  Probe : Nat → Option GoError

/-- Go `http.StatusOK`. -/
def StatusOK : Int := 200

/-- Lines 31-47 of `handleHTTP`: split the locator on spaces into the address, the
header name and the header value. -/
def parseLocator (url : String) : Except Fault (String × String × String) := do
  let split := Split url ' '
  if split.length > 1 then
    let header ← index split 1
    let headerValue ← index split 2
    let url ← index split 0
    if header = "Authorization" then
      pure (url, header, "Bearer " ++ headerValue)
    else
      pure (url, header, headerValue)
  else
    pure (url, "", "")

/-- Lines 31-57 of `handleHTTP`: the request that is handed to `tcp.Do`. -/
def buildRequest (w : World) (url : String) : Except Fault Request := do
  let (url, header, headerValue) ← parseLocator url
  match w.NewRequest "GET" url with
  | some err => throw (.returned err)
  | none =>
    if header ≠ "" then
      pure { method := "GET", url := url, Header := HttpHeader.Set [] header headerValue }
    else
      pure { method := "GET", url := url, Header := [] }

/-- Lines 68-71 of `handleHTTP`: the content type with its parameters cut off. -/
def contentType (res : Response) : String :=
  let ct := res.headerGetContentType
  let i := IndexByte ct ';'
  if i > 0 then sliceTo ct i else ct

/-- Lines 68-98 of `handleHTTP`: choose the producer by content type. -/
def dispatch (w : World) (url : String) (res : Response) : Except Fault Producer :=
  let ct := contentType res
  if ct = "image/jpeg" ∨ ct = "multipart/x-mixed-replace" then
    .ok (.mjpeg res)
  else if ct = "video/x-flv" then
    match w.Accept res with
    | .error err => .error (.returned err)
    | .ok conn =>
      match w.Describe conn with
      | some err => .error (.returned err)
      | none => .ok (.rtmp conn)
  else
    match w.Probe res.Body with
    | some err => .error (.returned err)
    | none => .ok (.magic "HTTP active producer" url res.Body)

/-- Lines 59-98 of `handleHTTP`: fetch, check the status, dispatch. -/
def fetch (w : World) (req : Request) : Except Fault Producer :=
  match w.Do req with
  | .error err => .error (.returned err)
  | .ok res =>
    if res.StatusCode ≠ StatusOK then
      .error (.returned ⟨res.Status⟩)
    else
      dispatch w req.url res

/-- The function `handleHTTP(url string) (core.Producer, error)`. -/
def handleHTTP (w : World) (url : String) : Except Fault Producer := do
  let req ← buildRequest w url
  fetch w req

/-! ### Specification-side notions for `handleHTTP` -/

/-- Fields of a character list around every character satisfying `p`. -/
def splitWhere (p : Char → Bool) : List Char → List (List Char)
  | [] => [[]]
  | c :: cs =>
    if p c then [] :: splitWhere p cs
    else match splitWhere p cs with
      | [] => [[c]]
      | h :: t => (c :: h) :: t

/-- The whitespace-separated tokens of a locator, as the specification counts them:
the maximal runs of non-whitespace characters. -/
def tokens (s : String) : List String :=
  ((splitWhere Char.isWhitespace s.data).filter (fun t => !t.isEmpty)).map String.mk

/-- The normalized content type in the words of the specification: the text before
the first semicolon of the `Content-Type` header. -/
def normalizedContentType (res : Response) : String :=
  String.mk (res.headerGetContentType.data.takeWhile (fun c => c ≠ ';'))

/-- A world in which every collaborator succeeds and `tcp.Do` answers with `res`. -/
def worldAnswering (res : Response) : World where
  NewRequest := fun _ _ => none
  Do := fun _ => .ok res
  Accept := fun r => .ok r.Body
  Describe := fun _ => none
  Probe := fun _ => none

/-! ## `net/url`: query strings -/

/-- Go `url.Values`, as the key/value pairs in the order of the query string. -/
abbrev Values := List (String × String)

/-- Go `Values.Get(key)`: the first value of the key, the empty string without one. -/
def Values.Get (v : Values) (key : String) : String :=
  match v.find? (fun p => p.1 = key) with
  | some p => p.2
  | none => ""

/-- Go `Values.Has(key)`. -/
def Values.Has (v : Values) (key : String) : Bool :=
  v.any (fun p => p.1 = key)

/-- Value of a hexadecimal digit. -/
def unhex (c : Char) : Option Nat :=
  if '0' ≤ c ∧ c ≤ '9' then some (c.toNat - '0'.toNat)
  else if 'a' ≤ c ∧ c ≤ 'f' then some (c.toNat - 'a'.toNat + 10)
  else if 'A' ≤ c ∧ c ≤ 'F' then some (c.toNat - 'A'.toNat + 10)
  else none

/-- Go `url.QueryUnescape`: `%XY` becomes the byte `XY`, `+` a space; a `%` that is
not followed by two hexadecimal digits is an error. -/
def unescape : List Char → Option (List Char)
  | [] => some []
  | c :: rest =>
    if c = '%' then
      match rest with
      | a :: b :: rest2 =>
        match unhex a, unhex b, unescape rest2 with
        | some x, some y, some t => some (Char.ofNat (16 * x + y) :: t)
        | _, _, _ => none
      | _ => none
    else
      match unescape rest with
      | some t => some ((if c = '+' then ' ' else c) :: t)
      | none => none

/-- One `key=value` element of a query string, as Go `url.ParseQuery` reads it; an
element with a semicolon, an empty element and one with a bad escape are dropped. -/
def parsePair (pair : List Char) : Option (String × String) :=
  if ';' ∈ pair then none
  else if pair = [] then none
  else
    let r := cutList '=' pair
    match unescape r.1, unescape r.2.1 with
    | some key, some value => some (String.mk key, String.mk value)
    | _, _ => none

/-- Go `r.URL.Query()`: the parsed raw query, malformed elements silently dropped. -/
def Query (rawQuery : String) : Values :=
  (splitOn '&' rawQuery.data).filterMap parsePair

/-! ## `internal/mp4`: the request handlers -/

/-- Byte slices. -/
abbrev Bytes := List Nat

/-- The request fields the handlers read: `r.UserAgent()`, `r.Header.Values("Range")`
(`none` for a nil slice), `r.URL.RawQuery` and `tcp.RemoteAddr(r)`. -/
structure HttpRequest where
  UserAgent : String
  Range : Option (List String)
  RawQuery : String
  RemoteAddr : String
deriving DecidableEq, Repr

/-- The consumers the handlers construct: `&mp4.Segment{OnlyKeyframe: ...}` and
`&mp4.Consumer{Desc, RemoteAddr, UserAgent, Medias}` (the medias named by a number). -/
inductive Consumer where
  | segment (OnlyKeyframe : Bool)
  | consumer (Desc RemoteAddr UserAgent : String) (Medias : Nat)
deriving DecidableEq, Repr

/-- The calls a handler makes on its collaborators, with the result where it has one;
`afterFunc d` is `time.AfterFunc(d, ...)` with `d` in nanoseconds. -/
inductive Call where
  | headerSet (key value : String)
  | writeHeader (code : Nat)
  | write (data : Bytes) (err : Option GoError)
  | httpError (msg : String) (code : Nat)
  | redirect (url : String) (code : Nat)
  | streamsGet (src : String) (stream : Option Nat)
  | listen (cons : Consumer)
  | addConsumer (stream : Nat) (cons : Consumer) (err : Option GoError)
  | removeConsumer (stream : Nat) (cons : Consumer)
  | consInit (cons : Consumer) (err : Option GoError)
  | consStart (cons : Consumer)
  | afterFunc (d : Int)
  | timerStop
  | receive
deriving DecidableEq, Repr

/-- What the collaborators answer during one request.  `exitValue` and `frame` are
the values the handler's receive from its `exit` channel yields, `none` when the
receive never completes. -/
structure Env where
  StreamNotFound : String
  Get : String → Option Nat
  AddConsumer : Nat → Consumer → Option GoError
  Init : Except GoError Bytes
  MimeType : String
  Write : Bytes → Option GoError
  coreAtoi : String → Int
  PatchVideoRotate : Bytes → Int → Bytes
  PatchVideoScale : Bytes → Int → Int → Bytes
  mp4ParseQuery : Values → Nat
  exitValue : Option (Option GoError)
  frame : Option Bytes

/-- One execution of a handler: the calls it made, in order, and whether it returned. -/
structure Run where
  calls : List Call
  returned : Bool
deriving DecidableEq, Repr

/-- Make a call, then continue. -/
def call (c : Call) (k : Run) : Run := ⟨c :: k.calls, k.returned⟩

/-- Go `return`. -/
def ret : Run := ⟨[], true⟩

/-- A receive that never completes. -/
def blocked : Run := ⟨[], false⟩

/-- Go `defer`: the call is made when the rest of the function returns. -/
def defer (c : Call) (k : Run) : Run :=
  if k.returned then ⟨k.calls ++ [c], true⟩ else k

/-- Make the call when the condition holds, then continue. -/
def callIf (b : Bool) (c : Call) (k : Run) : Run := if b then call c k else k

/-- Go `http.StatusNotFound`. -/
def StatusNotFound : Nat := 404

/-- Go `http.StatusInternalServerError`. -/
def StatusInternalServerError : Nat := 500

/-- Go `http.StatusMovedPermanently`. -/
def StatusMovedPermanently : Nat := 301

/-- The header value `attachment; filename="..."`. -/
def contentDisposition (filename : String) : String :=
  "attachment; filename=\"" ++ filename ++ "\""

/-- Lines 42-85 of `handlerKeyframe`: everything after the Chrome check. -/
def keyframeBody (env : Env) (r : HttpRequest) : Run :=
  let query := Query r.RawQuery
  let src := query.Get "src"
  match env.Get src with
  | none =>
    call (.streamsGet src none) <|
    call (.httpError env.StreamNotFound StatusNotFound) <|
    ret
  | some stream =>
    call (.streamsGet src (some stream)) <|
    let cons := Consumer.segment true
    call (.listen cons) <|
    match env.AddConsumer stream cons with
    | some err =>
      call (.addConsumer stream cons (some err)) <|
      call (.httpError err.msg StatusInternalServerError) <|
      ret
    | none =>
      call (.addConsumer stream cons none) <|
      match env.frame with
      | none => blocked
      | some data =>
        call .receive <|
        call (.removeConsumer stream cons) <|
        call (.headerSet "Content-Length" (Itoa data.length)) <|
        call (.headerSet "Content-Type" env.MimeType) <|
        let filename := query.Get "filename"
        callIf (filename ≠ "")
          (.headerSet "Content-Disposition" (contentDisposition filename)) <|
        call (.write data (env.Write data)) <|
        ret

/-- The function `handlerKeyframe(w http.ResponseWriter, r *http.Request)`. -/
def handlerKeyframe (env : Env) (r : HttpRequest) : Run :=
  let ua := r.UserAgent
  if Contains ua " Chrome/" ∧ r.Range = none then
    call (.headerSet "Content-Type" "video/mp4") <|
    call (.writeHeader 200) <|
    ret
  else
    keyframeBody env r

/-- Line 93 of `handlerMP4`: the condition of the redirect. -/
def redirects (r : HttpRequest) : Bool :=
  Contains r.UserAgent " Safari/" && !Contains r.UserAgent " Chrome/" &&
    !(Query r.RawQuery).Has "duration"

/-- Lines 95-98 of `handlerMP4`: the redirect target. -/
def redirectURL (r : HttpRequest) : String :=
  let url := "stream.m3u8?" ++ r.RawQuery
  if !(Query r.RawQuery).Has "mp4" then url ++ "&mp4" else url

/-- Lines 157-165 of `handlerMP4`: the geometry patches of the init segment. -/
def patch (env : Env) (query : Values) (data : Bytes) : Bytes :=
  let rotate := query.Get "rotate"
  let data := if rotate ≠ "" then env.PatchVideoRotate data (env.coreAtoi rotate) else data
  let scale := query.Get "scale"
  if scale ≠ "" then
    let r := cutList ':' scale.data
    if r.2.2 then
      env.PatchVideoScale data (env.coreAtoi (String.mk r.1)) (env.coreAtoi (String.mk r.2.1))
    else data
  else data

/-- Go `time.Second`, in nanoseconds. -/
def Second : Int := 1000000000

/-- Lines 175-188 of `handlerMP4`: the duration `time.Second*time.Duration(i)` of the
deadline timer, if one is set; the product is taken in `int64` and wraps, and a timer
with a duration that is not positive fires at once. -/
def duration (query : Values) : Option Int :=
  let s := query.Get "duration"
  if s ≠ "" then
    let i := Atoi s
    if i > 0 then some (wrapInt64 (Second * i)) else none
  else none

/-- Lines 143-197 of `handlerMP4`: everything after `defer stream.RemoveConsumer`. -/
def mp4Stream (env : Env) (query : Values) (cons : Consumer) : Run :=
  match env.Init with
  | .error err =>
    call (.consInit cons (some err)) <|
    call (.httpError err.msg StatusInternalServerError) <|
    ret
  | .ok data =>
    call (.consInit cons none) <|
    call (.headerSet "Content-Type" env.MimeType) <|
    let filename := query.Get "filename"
    callIf (filename ≠ "")
      (.headerSet "Content-Disposition" (contentDisposition filename)) <|
    let data := patch env query data
    match env.Write data with
    | some err =>
      call (.write data (some err)) <|
      call (.httpError err.msg StatusInternalServerError) <|
      ret
    | none =>
      call (.write data none) <|
      call (.consStart cons) <|
      match duration query with
      | some d =>
        call (.afterFunc d) <|
        match env.exitValue with
        | none => blocked
        | some _ =>
          call .receive <|
          call .timerStop <|
          ret
      | none =>
        match env.exitValue with
        | none => blocked
        | some _ =>
          call .receive <|
          ret

/-- Lines 113-118 of `handlerMP4`: the consumer. -/
def mp4Consumer (env : Env) (r : HttpRequest) : Consumer :=
  .consumer "MP4/HTTP" r.RemoteAddr r.UserAgent (env.mp4ParseQuery (Query r.RawQuery))

/-- The function `handlerMP4(w http.ResponseWriter, r *http.Request)`. -/
def handlerMP4 (env : Env) (r : HttpRequest) : Run :=
  let query := Query r.RawQuery
  if redirects r then
    call (.redirect (redirectURL r) StatusMovedPermanently) <|
    ret
  else
    let src := query.Get "src"
    match env.Get src with
    | none =>
      call (.streamsGet src none) <|
      call (.httpError env.StreamNotFound StatusNotFound) <|
      ret
    | some stream =>
      call (.streamsGet src (some stream)) <|
      let cons := mp4Consumer env r
      call (.listen cons) <|
      match env.AddConsumer stream cons with
      | some err =>
        call (.addConsumer stream cons (some err)) <|
        call (.httpError err.msg StatusInternalServerError) <|
        ret
      | none =>
        call (.addConsumer stream cons none) <|
        defer (.removeConsumer stream cons) <|
        mp4Stream env query cons

/-- Whether a call is `stream.RemoveConsumer`. -/
def Call.isRemove : Call → Bool
  | .removeConsumer _ _ => true
  | _ => false

/-- Whether a call goes to the stream registry (`streams.Get`, `AddConsumer`,
`RemoveConsumer`). -/
def Call.isRegistry : Call → Bool
  | .streamsGet _ _ => true
  | .addConsumer _ _ _ => true
  | .removeConsumer _ _ => true
  | _ => false

/-- Whether a call is a successful `stream.AddConsumer`. -/
def Call.isAdded : Call → Bool
  | .addConsumer _ _ none => true
  | _ => false

/-- The calls made after the first `stream.RemoveConsumer`. -/
def afterRemove (calls : List Call) : List Call :=
  (calls.dropWhile (fun c => !c.isRemove)).tail

/-- A request environment over one stream `cam1`, numbered 1, in which every
collaborator succeeds. -/
def envCam1 : Env where
  StreamNotFound := "stream not found"
  Get := fun src => if src = "cam1" then some 1 else none
  AddConsumer := fun _ _ => none
  Init := .ok [0, 0, 0, 24]
  MimeType := "video/mp4"
  Write := fun _ => none
  coreAtoi := fun _ => 0
  PatchVideoRotate := fun d _ => d
  PatchVideoScale := fun d _ _ => d
  mp4ParseQuery := fun _ => 0
  exitValue := some none
  frame := some [1, 2, 3]

/-! ## The exit signal of `handlerMP4`

The handler, the sample callback (lines 120-133) and the deadline timer (lines
178-186) run on different goroutines and share the variable `exit`.  The step
function below interleaves them: one run of the callback and one fire of the timer
are single steps, and the handler advances through the places named by `Pc`. -/

/-- The deadline timer `duration`. -/
inductive Timer where
  | unset
  | pending
  | fired
  | stopped
deriving DecidableEq, Repr

/-- Where the handler goroutine of `handlerMP4` stands once the callback is attached:
`adding` is the call of `AddConsumer` (lines 135-139), `setup` is lines 141-173 with
`RemoveConsumer` deferred, `armed` is after the timer set-up of lines 175-188,
`waiting ch` is inside `<-exit` (line 190) on the channel operand it has read from
the variable (`ch = false` for nil), `received` is after line 190, `cleared` after
line 191, `returned` after the function has returned. -/
inductive Pc where
  | adding
  | setup
  | armed
  | waiting (ch : Bool)
  | received (err : Option GoError)
  | cleared (err : Option GoError)
  | returned
deriving DecidableEq, Repr

/-- State of one `handlerMP4` request: whether the variable `exit` still refers to
the channel of line 111, the buffer of that channel (capacity 1), every value ever
sent on it, the timer, the handler's place, whether the request asks for a deadline,
and how often `RemoveConsumer` was called. -/
structure ExitState where
  exit : Bool
  buf : List (Option GoError)
  sent : List (Option GoError)
  timer : Timer
  pc : Pc
  deadline : Bool
  removed : Nat
deriving DecidableEq, Repr

/-- The steps of the interleaving: the registry delivers a message to the callback
(whether it is a byte slice, and the error of `w.Write` on it), the timer fires, or
the handler advances (`ok` tells whether `AddConsumer`, at `adding`, or lines
143-173, at `setup`, succeed). -/
inductive Step where
  | callback (isBytes : Bool) (writeErr : Option GoError)
  | timerFire
  | handler (ok : Bool)
deriving DecidableEq, Repr

/-- Go `select { case exit <- v: default: }` on the channel of capacity 1. -/
def ExitState.trySend (s : ExitState) (v : Option GoError) : ExitState :=
  if s.buf.length < 1 then { s with buf := s.buf ++ [v], sent := s.sent ++ [v] } else s

/-- The state after line 133, with the callback attached. -/
def ExitState.init (deadline : Bool) : ExitState :=
  { exit := true, buf := [], sent := [], timer := .unset, pc := .adding,
    deadline := deadline, removed := 0 }

/-- Lines 120-133: one run of the callback. -/
def callbackMP4 (s : ExitState) (isBytes : Bool) (writeErr : Option GoError) : ExitState :=
  if !s.exit then s
  else if isBytes then
    match writeErr with
    | some err => { s.trySend (some err) with exit := false }
    | none => s
  else s

/-- Lines 178-186: the function of the deadline timer. -/
def timerFunc (s : ExitState) : ExitState :=
  if s.exit then { s.trySend none with exit := false } else s

/-- One step; `none` when the step cannot be taken in the state. -/
def stepMP4 (s : ExitState) : Step → Option ExitState
  | .callback isBytes writeErr => some (callbackMP4 s isBytes writeErr)
  | .timerFire =>
    match s.timer with
    | .pending => some { timerFunc s with timer := .fired }
    | _ => none
  | .handler ok =>
    match s.pc with
    | .adding =>
      if ok then some { s with pc := .setup } else some { s with pc := .returned }
    | .setup =>
      if ok then
        some { s with pc := .armed, timer := if s.deadline then .pending else .unset }
      else
        some { s with pc := .returned, removed := s.removed + 1 }
    | .armed => some { s with pc := .waiting s.exit }
    | .waiting true =>
      match s.buf with
      | v :: rest => some { s with buf := rest, pc := .received v }
      | [] => none
    | .waiting false => none
    | .received v => some { s with exit := false, pc := .cleared v }
    | .cleared _ =>
      some { s with pc := .returned, removed := s.removed + 1,
                    timer := if s.timer = .pending then .stopped else s.timer }
    | .returned => none

/-- Run a sequence of steps; `none` when one of them cannot be taken. -/
def execMP4 (s : ExitState) : List Step → Option ExitState
  | [] => some s
  | t :: ts =>
    match stepMP4 s t with
    | some s2 => execMP4 s2 ts
    | none => none

/-! ## The exit signal of `handlerKeyframe` -/

/-- Where the handler goroutine of `handlerKeyframe` stands once the callback is
attached: `adding` is the call of `AddConsumer` (line 63), `waiting ch` is inside
`<-exit` (line 69) on the channel operand it has read, `received` is after line 69,
`removed` after `RemoveConsumer` (line 71), `failed` after the return of line 66. -/
inductive KeyPc where
  | adding
  | waiting (ch : Bool)
  | received (data : Bytes)
  | removed (data : Bytes)
  | failed
deriving DecidableEq, Repr

/-- State of one `handlerKeyframe` request: the variable `exit`, the buffer of the
channel of line 50 (capacity 1), every value ever sent on it, the handler's place. -/
structure KeyState where
  exit : Bool
  buf : List Bytes
  sent : List Bytes
  pc : KeyPc
deriving DecidableEq, Repr

/-- The steps: the registry delivers a message to the callback (`some data` for a
byte slice), or the handler advances (`ok` tells whether `AddConsumer` succeeds). -/
inductive KeyStep where
  | callback (msg : Option Bytes)
  | handler (ok : Bool)
deriving DecidableEq, Repr

/-- The state after line 61, with the callback attached. -/
def KeyState.init : KeyState :=
  { exit := true, buf := [], sent := [], pc := .adding }

/-- Lines 53-61: one run of the callback. -/
def callbackKeyframe (s : KeyState) : Option Bytes → KeyState
  | some data =>
    if s.exit then
      if s.buf.length < 1 then
        { s with buf := s.buf ++ [data], sent := s.sent ++ [data], exit := false }
      else { s with exit := false }
    else s
  | none => s

/-- One step; `none` when the step cannot be taken in the state. -/
def stepKeyframe (s : KeyState) : KeyStep → Option KeyState
  | .callback msg => some (callbackKeyframe s msg)
  | .handler ok =>
    match s.pc with
    | .adding => if ok then some { s with pc := .waiting s.exit } else some { s with pc := .failed }
    | .waiting true =>
      match s.buf with
      | v :: rest => some { s with buf := rest, pc := .received v }
      | [] => none
    | .waiting false => none
    | .received v => some { s with pc := .removed v }
    | .removed _ => none
    | .failed => none

/-- Run a sequence of steps; `none` when one of them cannot be taken. -/
def execKeyframe (s : KeyState) : List KeyStep → Option KeyState
  | [] => some s
  | t :: ts =>
    match stepKeyframe s t with
    | some s2 => execKeyframe s2 ts
    | none => none

/-- The invariant of the exit signal of `handlerMP4`: at most one value was ever
sent; after a send the variable `exit` is nil; the buffer holds what was sent until
the handler receives it, and what the handler received is the one value sent. -/
def ExitState.Inv (s : ExitState) : Prop :=
  s.sent.length ≤ 1 ∧ (s.sent ≠ [] → s.exit = false) ∧
  match s.pc with
  | .adding => s.buf = s.sent
  | .setup => s.buf = s.sent
  | .armed => s.buf = s.sent
  | .waiting _ => s.buf = s.sent
  | .received v => s.sent = [v] ∧ s.buf = []
  | .cleared v => s.sent = [v] ∧ s.buf = []
  | .returned => s.buf = [] ∨ s.buf = s.sent

/-- The environment `envCam1` with a registry that rejects every consumer. -/
def envRejecting : Env :=
  { envCam1 with AddConsumer := fun _ _ => some ⟨"codecs not matched"⟩ }

/-- The environment `envCam1` with a consumer whose `Init` fails. -/
def envInitFailing : Env :=
  { envCam1 with Init := .error ⟨"init failed"⟩ }

/-- The query string of the redirect target of `handlerMP4`: what follows
`stream.m3u8?` in `redirectURL`. -/
def redirectQuery (r : HttpRequest) : String :=
  if !(Query r.RawQuery).Has "mp4" then r.RawQuery ++ "&mp4" else r.RawQuery

/-- The invariant of the exit signal of `handlerKeyframe`: at most one sample was
ever sent; after a send the variable `exit` is nil; the buffer holds what was sent
until the handler receives it, and what the handler received is the one sample sent. -/
def KeyState.Inv (s : KeyState) : Prop :=
  s.sent.length ≤ 1 ∧ (s.sent ≠ [] → s.exit = false) ∧
  match s.pc with
  | .adding => s.buf = s.sent
  | .waiting _ => s.buf = s.sent
  | .received v => s.sent = [v] ∧ s.buf = []
  | .removed v => s.sent = [v] ∧ s.buf = []
  | .failed => s.buf = s.sent

/-! # Theorems -/

/-! ## Lemmas on the string functions -/

theorem splitOn_ne_nil (sep : Char) (l : List Char) : splitOn sep l ≠ [] := by
  cases l with
  | nil => simp [splitOn]
  | cons c cs =>
    unfold splitOn
    split
    · simp
    · split <;> simp

theorem splitOn_of_not_mem (sep : Char) (l : List Char) (h : sep ∉ l) :
    splitOn sep l = [l] := by
  induction l with
  | nil => rfl
  | cons c cs ih =>
    have hc : c ≠ sep := fun e => h (by simp [e])
    have hcs : sep ∉ cs := fun e => h (by simp [e])
    simp [splitOn, hc, ih hcs]

theorem splitOn_append_sep (sep : Char) (a rest : List Char) (h : sep ∉ a) :
    splitOn sep (a ++ sep :: rest) = a :: splitOn sep rest := by
  induction a with
  | nil => simp [splitOn]
  | cons c cs ih =>
    have hc : c ≠ sep := fun e => h (by simp [e])
    have hcs : sep ∉ cs := fun e => h (by simp [e])
    simp [splitOn, hc, ih hcs]

/-- The fields of `splitOn` joined by the separator give the input back. -/
theorem intercalate_splitOn (sep : Char) (l : List Char) :
    List.intercalate [sep] (splitOn sep l) = l := by
  induction l with
  | nil => rfl
  | cons c cs ih =>
    have hne := splitOn_ne_nil sep cs
    by_cases hc : c = sep
    · rw [splitOn, if_pos hc]
      cases hs : splitOn sep cs with
      | nil => exact absurd hs hne
      | cons x xs =>
        rw [hs] at ih
        simp [List.intercalate, List.intersperse] at ih ⊢
        exact ⟨hc.symm, ih⟩
    · rw [splitOn, if_neg hc]
      cases hs : splitOn sep cs with
      | nil => exact absurd hs hne
      | cons x xs =>
        rw [hs] at ih
        cases xs with
        | nil =>
          simp [List.intercalate, List.intersperse] at ih ⊢
          exact ih
        | cons y ys =>
          simp [List.intercalate, List.intersperse] at ih ⊢
          exact ih

/-- No field of `splitOn` holds the separator. -/
theorem not_mem_of_mem_splitOn (sep : Char) (l f : List Char) (h : f ∈ splitOn sep l) :
    sep ∉ f := by
  induction l generalizing f with
  | nil =>
    simp [splitOn] at h
    subst h
    simp
  | cons c cs ih =>
    have hne := splitOn_ne_nil sep cs
    by_cases hc : c = sep
    · rw [splitOn, if_pos hc] at h
      rcases List.mem_cons.mp h with h | h
      · subst h
        simp
      · exact ih f h
    · rw [splitOn, if_neg hc] at h
      cases hs : splitOn sep cs with
      | nil => exact absurd hs hne
      | cons x xs =>
        rw [hs] at h
        rcases List.mem_cons.mp h with h | h
        · subst h
          have hx := ih x (by rw [hs]; exact List.mem_cons_self _ _)
          intro hmem
          rcases List.mem_cons.mp hmem with e | e
          · exact hc e.symm
          · exact hx e
        · exact ih f (by rw [hs]; exact List.mem_cons_of_mem _ h)

theorem startsWith_iff (s p : List Char) : startsWith s p = true ↔ p <+: s := by
  induction p generalizing s with
  | nil => simp [startsWith]
  | cons a as ih =>
    cases s with
    | nil => simp [startsWith]
    | cons c cs =>
      simp only [startsWith, Bool.and_eq_true, beq_iff_eq, ih, List.cons_prefix_cons]
      constructor
      · rintro ⟨h1, h2⟩
        exact ⟨h1.symm, h2⟩
      · rintro ⟨h1, h2⟩
        exact ⟨h1.symm, h2⟩

/-- The function `Contains` decides whether `substr` occurs in `s` as a contiguous
run. -/
theorem Contains_iff (s substr : String) :
    Contains s substr = true ↔ substr.data <:+: s.data := by
  unfold Contains
  generalize s.data = l
  generalize substr.data = sub
  induction l with
  | nil =>
    cases sub <;> simp [containsAt]
  | cons c cs ih =>
    simp only [containsAt, Bool.or_eq_true, startsWith_iff, ih]
    rw [List.infix_cons_iff]

theorem Split_of_no_sep (s : String) (sep : Char) (h : sep ∉ s.data) :
    Split s sep = [s] := by
  simp [Split, splitOn_of_not_mem sep s.data h]

theorem Split_three (a n v : String) (ha : ' ' ∉ a.data) (hn : ' ' ∉ n.data)
    (hv : ' ' ∉ v.data) : Split (a ++ " " ++ n ++ " " ++ v) ' ' = [a, n, v] := by
  have h : (a ++ " " ++ n ++ " " ++ v).data = a.data ++ ' ' :: (n.data ++ ' ' :: v.data) := by
    simp
  simp [Split, h, splitOn_append_sep, splitOn_of_not_mem, ha, hn, hv]

/-! ## `handleHTTP`: the locator -/

/-- C1 (as stated, refuted): the four-token locator `a b c d` is not rejected; its
parse succeeds with the first three fields and the request is built. -/
theorem parseLocator_four_tokens_accepted :
    (tokens "a b c d").length = 4 ∧
    parseLocator "a b c d" = .ok ("a", "b", "c") ∧
    buildRequest (worldAnswering ⟨200, "200 OK", none, 0⟩) "a b c d"
      = .ok ⟨"GET", "a", [("B", "c")]⟩ := by
  refine ⟨by decide, by rfl, by rfl⟩

/-- C1 (amended): a locator that splits on single spaces into exactly one field
parses to itself with no header, and one that splits into three or more fields parses
to its first three fields (the value prefixed with `Bearer ` for the name
`Authorization`), the further fields being ignored. -/
theorem parseLocator_fields (url : String) :
    ((Split url ' ').length = 1 → parseLocator url = .ok (url, "", "")) ∧
    (3 ≤ (Split url ' ').length →
      ∃ a n v rest, Split url ' ' = a :: n :: v :: rest ∧
        parseLocator url
          = .ok (a, n, if n = "Authorization" then "Bearer " ++ v else v)) := by
  refine ⟨?_, ?_⟩
  · intro h
    simp [parseLocator, h]
    rfl
  · intro h
    match hs : Split url ' ', h with
    | a :: n :: v :: rest, _ =>
      refine ⟨a, n, v, rest, rfl, ?_⟩
      unfold parseLocator
      simp only [hs]
      by_cases hn : n = "Authorization" <;>
        simp [index, hn, bind, Except.bind, pure, Except.pure]

/-- The two-field locator `a b` aborts `handleHTTP` at `split[2]`. -/
theorem parseLocator_two_fields_aborts (w : World) :
    parseLocator "a b" = .error (.indexOutOfRange 2 2) ∧
    handleHTTP w "a b" = .error (.indexOutOfRange 2 2) :=
  ⟨rfl, rfl⟩

/-- C1 (amended), at the locators `http://cam/x` and `a b c d`. -/
theorem parseLocator_fields_witness :
    parseLocator "http://cam/x" = .ok ("http://cam/x", "", "") ∧
    (∃ a n v rest, Split "a b c d" ' ' = a :: n :: v :: rest ∧
      parseLocator "a b c d"
        = .ok (a, n, if n = "Authorization" then "Bearer " ++ v else v)) :=
  ⟨(parseLocator_fields "http://cam/x").1 (by decide),
   (parseLocator_fields "a b c d").2 (by decide)⟩

/-! ## `handleHTTP`: the request -/

theorem parseLocator_of_three (url a n v : String) (rest : List String)
    (hs : Split url ' ' = a :: n :: v :: rest) :
    parseLocator url = .ok (a, n, if n = "Authorization" then "Bearer " ++ v else v) := by
  unfold parseLocator
  simp only [hs]
  by_cases hn : n = "Authorization" <;>
    simp [index, hn, bind, Except.bind, pure, Except.pure]

theorem parseLocator_of_one (url : String) (hs : (Split url ' ').length = 1) :
    parseLocator url = .ok (url, "", "") := by
  simp [parseLocator, hs]
  rfl

theorem handleHTTP_eq_fetch (w : World) (url : String) (req : Request)
    (hb : buildRequest w url = .ok req) : handleHTTP w url = fetch w req := by
  unfold handleHTTP
  simp [hb, bind, Except.bind]

/-- C2 (as stated, refuted): for the three-token locator
`http://cam/x authorization abc` the one header of the request is named
`Authorization`, not `authorization`, since `Header.Set` stores the canonical key
(and its value has no `Bearer ` prefix); and for the three-token locator
`http://cam/x  Authorization abc`, with two spaces after the address, the request
has no header at all. -/
theorem buildRequest_header_not_as_named :
    tokens "http://cam/x authorization abc" = ["http://cam/x", "authorization", "abc"] ∧
    buildRequest (worldAnswering ⟨200, "200 OK", none, 0⟩) "http://cam/x authorization abc"
      = .ok ⟨"GET", "http://cam/x", [("Authorization", "abc")]⟩ ∧
    tokens "http://cam/x  Authorization abc" = ["http://cam/x", "Authorization", "abc"] ∧
    buildRequest (worldAnswering ⟨200, "200 OK", none, 0⟩) "http://cam/x  Authorization abc"
      = .ok ⟨"GET", "http://cam/x", []⟩ := by
  refine ⟨by decide, by rfl, by decide, by rfl⟩

/-- C2 (amended): for a locator that splits on single spaces into three or more
fields `addr`, `name`, `value`, the request handed to `tcp.Do` is a GET to `addr`;
when `name` is not empty its header has exactly one entry, under the canonical form
of `name` (`textproto.CanonicalMIMEHeaderKey`), with the value `Bearer value` when
`name` is exactly `Authorization` and `value` otherwise; when `name` is empty the
header is empty.  In particular this holds for `addr name value` with space-free
parts.  For a locator of one field the request is a GET to the whole locator with
an empty header. -/
theorem buildRequest_fields (w : World) :
    (∀ (url addr name value : String) (rest : List String),
      Split url ' ' = addr :: name :: value :: rest →
      w.NewRequest "GET" addr = none →
      (name ≠ "" →
        buildRequest w url
          = .ok ⟨"GET", addr,
              [(CanonicalMIMEHeaderKey name,
                if name = "Authorization" then "Bearer " ++ value else value)]⟩ ∧
        handleHTTP w url
          = fetch w ⟨"GET", addr,
              [(CanonicalMIMEHeaderKey name,
                if name = "Authorization" then "Bearer " ++ value else value)]⟩) ∧
      (name = "" →
        buildRequest w url = .ok ⟨"GET", addr, []⟩ ∧
        handleHTTP w url = fetch w ⟨"GET", addr, []⟩)) ∧
    (∀ addr name value : String,
      ' ' ∉ addr.data → ' ' ∉ name.data → ' ' ∉ value.data → name ≠ "" →
      w.NewRequest "GET" addr = none →
      buildRequest w (addr ++ " " ++ name ++ " " ++ value)
        = .ok ⟨"GET", addr,
            [(CanonicalMIMEHeaderKey name,
              if name = "Authorization" then "Bearer " ++ value else value)]⟩) ∧
    (∀ url : String, (Split url ' ').length = 1 → w.NewRequest "GET" url = none →
      buildRequest w url = .ok ⟨"GET", url, []⟩ ∧
      handleHTTP w url = fetch w ⟨"GET", url, []⟩) := by
  have three : ∀ (url addr name value : String) (rest : List String),
      Split url ' ' = addr :: name :: value :: rest →
      w.NewRequest "GET" addr = none → name ≠ "" →
      buildRequest w url
        = .ok ⟨"GET", addr,
            [(CanonicalMIMEHeaderKey name,
              if name = "Authorization" then "Bearer " ++ value else value)]⟩ := by
    intro url addr name value rest hs hreq hne
    unfold buildRequest
    simp [parseLocator_of_three url addr name value rest hs, hreq, hne, HttpHeader.Set,
      bind, Except.bind, pure, Except.pure]
  refine ⟨?_, ?_, ?_⟩
  · intro url addr name value rest hs hreq
    constructor
    · intro hne
      have hb := three url addr name value rest hs hreq hne
      exact ⟨hb, handleHTTP_eq_fetch w url _ hb⟩
    · intro he
      have hb : buildRequest w url = .ok ⟨"GET", addr, []⟩ := by
        unfold buildRequest
        simp [parseLocator_of_three url addr name value rest hs, hreq, he,
          bind, Except.bind, pure, Except.pure]
      exact ⟨hb, handleHTTP_eq_fetch w url _ hb⟩
  · intro addr name value ha hn hv hne hreq
    exact three _ addr name value [] (Split_three addr name value ha hn hv) hreq hne
  · intro url hu hreq
    have hb : buildRequest w url = .ok ⟨"GET", url, []⟩ := by
      unfold buildRequest
      simp [parseLocator_of_one url hu, hreq, bind, Except.bind, pure, Except.pure]
    exact ⟨hb, handleHTTP_eq_fetch w url _ hb⟩

/-- C2 (amended), at the locators `http://cam/x Authorization abc`,
`http://cam/x x-api-key abc`, `http://cam/x  Authorization abc` and `http://cam/x`. -/
theorem buildRequest_fields_witness :
    buildRequest (worldAnswering ⟨200, "200 OK", none, 0⟩) "http://cam/x Authorization abc"
      = .ok ⟨"GET", "http://cam/x", [("Authorization", "Bearer abc")]⟩ ∧
    buildRequest (worldAnswering ⟨200, "200 OK", none, 0⟩) "http://cam/x x-api-key abc"
      = .ok ⟨"GET", "http://cam/x", [("X-Api-Key", "abc")]⟩ ∧
    buildRequest (worldAnswering ⟨200, "200 OK", none, 0⟩) "http://cam/x  Authorization abc"
      = .ok ⟨"GET", "http://cam/x", []⟩ ∧
    buildRequest (worldAnswering ⟨200, "200 OK", none, 0⟩) "http://cam/x"
      = .ok ⟨"GET", "http://cam/x", []⟩ :=
  ⟨(((buildRequest_fields (worldAnswering ⟨200, "200 OK", none, 0⟩)).1
      "http://cam/x Authorization abc" "http://cam/x" "Authorization" "abc" []
      (by decide) rfl).1 (by decide)).1,
   (((buildRequest_fields (worldAnswering ⟨200, "200 OK", none, 0⟩)).1
      "http://cam/x x-api-key abc" "http://cam/x" "x-api-key" "abc" []
      (by decide) rfl).1 (by decide)).1,
   (((buildRequest_fields (worldAnswering ⟨200, "200 OK", none, 0⟩)).1
      "http://cam/x  Authorization abc" "http://cam/x" "" "Authorization" ["abc"]
      (by decide) rfl).2 rfl).1,
   ((buildRequest_fields (worldAnswering ⟨200, "200 OK", none, 0⟩)).2.2
      "http://cam/x" (by decide) rfl).1⟩

/-! ## `handleHTTP`: the status check -/

/-- C3 (as stated, refuted): a fetched response with status 206, inside 200..299, is
rejected with its status line as the error message. -/
theorem handleHTTP_rejects_206 :
    handleHTTP (worldAnswering ⟨206, "206 Partial Content", some "image/jpeg", 7⟩)
        "http://cam/x"
      = .error (.returned ⟨"206 Partial Content"⟩) := by
  rfl

theorem fetch_not_ok (w : World) (req : Request) (res : Response)
    (hd : w.Do req = .ok res) (hs : res.StatusCode ≠ 200) :
    fetch w req = .error (.returned ⟨res.Status⟩) := by
  unfold fetch
  simp [hd, StatusOK, hs]

theorem fetch_ok (w : World) (req : Request) (res : Response)
    (hd : w.Do req = .ok res) (hs : res.StatusCode = 200) :
    fetch w req = dispatch w req.url res := by
  unfold fetch
  simp [hd, StatusOK, hs]

/-- C3 (amended): after a successful fetch the response is rejected on status grounds
exactly when its status code is not 200: then no producer is returned and the error
message is the status line; a response with status 200 goes on to the content-type
dispatch. -/
theorem handleHTTP_status (w : World) (url : String) (req : Request) (res : Response)
    (hb : buildRequest w url = .ok req) (hd : w.Do req = .ok res) :
    (res.StatusCode ≠ 200 → handleHTTP w url = .error (.returned ⟨res.Status⟩)) ∧
    (res.StatusCode = 200 → handleHTTP w url = dispatch w req.url res) := by
  rw [handleHTTP_eq_fetch w url req hb]
  exact ⟨fetch_not_ok w req res hd, fetch_ok w req res hd⟩

/-- C3 (amended), at a 201 response and at a 200 response. -/
theorem handleHTTP_status_witness :
    handleHTTP (worldAnswering ⟨201, "201 Created", some "image/jpeg", 7⟩) "http://cam/x"
      = .error (.returned ⟨"201 Created"⟩) ∧
    handleHTTP (worldAnswering ⟨200, "200 OK", some "image/jpeg", 7⟩) "http://cam/x"
      = dispatch (worldAnswering ⟨200, "200 OK", some "image/jpeg", 7⟩) "http://cam/x"
          ⟨200, "200 OK", some "image/jpeg", 7⟩ :=
  ⟨(handleHTTP_status (worldAnswering ⟨201, "201 Created", some "image/jpeg", 7⟩)
      "http://cam/x" ⟨"GET", "http://cam/x", []⟩ ⟨201, "201 Created", some "image/jpeg", 7⟩
      rfl rfl).1 (by decide),
   (handleHTTP_status (worldAnswering ⟨200, "200 OK", some "image/jpeg", 7⟩)
      "http://cam/x" ⟨"GET", "http://cam/x", []⟩ ⟨200, "200 OK", some "image/jpeg", 7⟩
      rfl rfl).2 rfl⟩

/-! ## `handleHTTP`: the content-type dispatch -/

theorem indexOf_ge (c : Char) (l : List Char) : -1 ≤ indexOf c l := by
  induction l with
  | nil => simp [indexOf]
  | cons d ds ih =>
    unfold indexOf
    split
    · omega
    · simp only []
      split <;> omega

theorem indexOf_neg (c : Char) (l : List Char) (h : indexOf c l < 0) :
    l.takeWhile (fun x => x ≠ c) = l := by
  induction l with
  | nil => rfl
  | cons d ds ih =>
    unfold indexOf at h
    split at h
    · omega
    · rename_i hd
      simp only [] at h
      split at h
      · rename_i hneg
        rw [List.takeWhile_cons_of_pos (by simpa using hd), ih hneg]
      · have := indexOf_ge c ds
        omega

theorem indexOf_nonneg (c : Char) (l : List Char) (h : 0 ≤ indexOf c l) :
    l.take (indexOf c l).toNat = l.takeWhile (fun x => x ≠ c) := by
  induction l with
  | nil => simp [indexOf] at h
  | cons d ds ih =>
    unfold indexOf at h ⊢
    split
    · rename_i hd
      simp [List.takeWhile, hd]
    · rename_i hd
      simp only [hd, if_false] at h
      simp only []
      split
      · rename_i hneg
        simp [hneg] at h
      · rename_i hnn
        have hnn' : 0 ≤ indexOf c ds := by omega
        have e : (indexOf c ds + 1).toNat = (indexOf c ds).toNat + 1 := by omega
        rw [e, List.take_succ_cons, ih hnn', List.takeWhile_cons_of_pos (by simpa using hd)]

theorem indexOf_zero (c : Char) (l : List Char) (h : indexOf c l = 0) :
    l.head? = some c := by
  cases l with
  | nil => simp [indexOf] at h
  | cons d ds =>
    unfold indexOf at h
    split at h
    · rename_i hd
      simp [hd]
    · simp only [] at h
      split at h
      · omega
      · have := indexOf_ge c ds
        omega

/-- The content type as the code cuts it and the text before the first semicolon
agree on every value that is non-empty and does not begin with a semicolon. -/
theorem contentType_eq_iff (res : Response) (L : String)
    (hL : L.data.head? ≠ none ∧ L.data.head? ≠ some ';') :
    contentType res = L ↔ normalizedContentType res = L := by
  unfold contentType normalizedContentType IndexByte sliceTo
  simp only []
  generalize res.headerGetContentType = ct
  rcases lt_trichotomy (indexOf ';' ct.data) 0 with h | h | h
  · have := indexOf_neg ';' ct.data h
    have hn : ¬ (indexOf ';' ct.data > 0) := by omega
    simp only [hn, if_false, this]
  · have hh := indexOf_zero ';' ct.data h
    have hn : ¬ (indexOf ';' ct.data > 0) := by omega
    simp only [hn, if_false]
    have ht : ct.data.takeWhile (fun x => x ≠ ';') = [] := by
      cases hc : ct.data with
      | nil => rfl
      | cons d ds =>
        rw [hc] at hh
        simp at hh
        simp [List.takeWhile, hh]
    rw [ht]
    constructor
    · intro e
      subst e
      exact absurd hh hL.2
    · intro e
      subst e
      simp at hL
  · have := indexOf_nonneg ';' ct.data (le_of_lt h)
    have hp : indexOf ';' ct.data > 0 := h
    simp only [hp, if_true, this]

/-- C4: for a fetched response with status 200 the producer is chosen by the text
before the first semicolon of the content type alone: `image/jpeg` and
`multipart/x-mixed-replace` always give the mjpeg producer; `video/x-flv` gives the
rtmp producer exactly when `rtmp.Accept` and then `Describe` both succeed, and the
error of the failing step otherwise; every other value, an absent header included,
goes to the probe, whose producer on success has the description
`HTTP active producer` and the address as URL. -/
theorem handleHTTP_dispatch (w : World) (url : String) (req : Request) (res : Response)
    (hb : buildRequest w url = .ok req) (hd : w.Do req = .ok res)
    (hs : res.StatusCode = 200) :
    (normalizedContentType res = "image/jpeg" ∨
        normalizedContentType res = "multipart/x-mixed-replace" →
      handleHTTP w url = .ok (.mjpeg res)) ∧
    (normalizedContentType res = "video/x-flv" →
      (∀ p, handleHTTP w url = .ok p ↔
        ∃ conn, w.Accept res = .ok conn ∧ w.Describe conn = none ∧ p = .rtmp conn) ∧
      (∀ e, w.Accept res = .error e → handleHTTP w url = .error (.returned e)) ∧
      (∀ conn e, w.Accept res = .ok conn → w.Describe conn = some e →
        handleHTTP w url = .error (.returned e))) ∧
    (normalizedContentType res ≠ "image/jpeg" →
      normalizedContentType res ≠ "multipart/x-mixed-replace" →
      normalizedContentType res ≠ "video/x-flv" →
      handleHTTP w url =
        match w.Probe res.Body with
        | some err => .error (.returned err)
        | none => .ok (.magic "HTTP active producer" req.url res.Body)) := by
  have h : handleHTTP w url = dispatch w req.url res := by
    rw [handleHTTP_eq_fetch w url req hb, fetch_ok w req res hd hs]
  have e1 := contentType_eq_iff res "image/jpeg" (by decide)
  have e2 := contentType_eq_iff res "multipart/x-mixed-replace" (by decide)
  have e3 := contentType_eq_iff res "video/x-flv" (by decide)
  rw [h]
  unfold dispatch
  simp only [e1, e2, e3]
  refine ⟨?_, ?_, ?_⟩
  · intro hct
    simp [hct]
  · intro hct
    have n1 : ¬ (normalizedContentType res = "image/jpeg" ∨
        normalizedContentType res = "multipart/x-mixed-replace") := by
      rw [hct]; decide
    rw [if_neg n1, if_pos hct]
    refine ⟨?_, ?_, ?_⟩
    · intro p
      cases ha : w.Accept res with
      | error e => simp
      | ok conn =>
        cases hdc : w.Describe conn with
        | some e => simp [hdc]
        | none =>
          simp only [hdc, Except.ok.injEq]
          constructor
          · intro hp
            exact ⟨conn, rfl, hdc, hp.symm⟩
          · rintro ⟨c, hc, -, hp⟩
            rw [hp, hc]
    · intro e ha
      simp [ha]
    · intro conn e ha hdc
      simp [ha, hdc]
  · intro n1 n2 n3
    simp [n1, n2, n3]

/-- C4, at the content types `image/jpeg; q=1`, `video/x-flv` and an absent header. -/
theorem handleHTTP_dispatch_witness :
    handleHTTP (worldAnswering ⟨200, "200 OK", some "image/jpeg; q=1", 7⟩) "http://cam/x"
      = .ok (.mjpeg ⟨200, "200 OK", some "image/jpeg; q=1", 7⟩) ∧
    (∀ p, handleHTTP (worldAnswering ⟨200, "200 OK", some "video/x-flv", 7⟩) "http://cam/x"
        = .ok p ↔
      ∃ conn, (worldAnswering ⟨200, "200 OK", some "video/x-flv", 7⟩).Accept
          ⟨200, "200 OK", some "video/x-flv", 7⟩ = .ok conn ∧
        (worldAnswering ⟨200, "200 OK", some "video/x-flv", 7⟩).Describe conn = none ∧
        p = .rtmp conn) ∧
    handleHTTP (worldAnswering ⟨200, "200 OK", none, 7⟩) "http://cam/x"
      = .ok (.magic "HTTP active producer" "http://cam/x" 7) :=
  ⟨(handleHTTP_dispatch (worldAnswering ⟨200, "200 OK", some "image/jpeg; q=1", 7⟩)
      "http://cam/x" ⟨"GET", "http://cam/x", []⟩ ⟨200, "200 OK", some "image/jpeg; q=1", 7⟩
      rfl rfl rfl).1 (Or.inl (by decide)),
   ((handleHTTP_dispatch (worldAnswering ⟨200, "200 OK", some "video/x-flv", 7⟩)
      "http://cam/x" ⟨"GET", "http://cam/x", []⟩ ⟨200, "200 OK", some "video/x-flv", 7⟩
      rfl rfl rfl).2.1 (by decide)).1,
   (handleHTTP_dispatch (worldAnswering ⟨200, "200 OK", none, 7⟩)
      "http://cam/x" ⟨"GET", "http://cam/x", []⟩ ⟨200, "200 OK", none, 7⟩
      rfl rfl rfl).2.2 (by decide) (by decide) (by decide)⟩

/-! ## The exit signal -/

theorem Inv_init (deadline : Bool) : (ExitState.init deadline).Inv := by
  simp [ExitState.Inv, ExitState.init]

theorem Inv_callback (s : ExitState) (isBytes : Bool) (writeErr : Option GoError)
    (h : s.Inv) : (callbackMP4 s isBytes writeErr).Inv ∧
      (callbackMP4 s isBytes writeErr).pc = s.pc := by
  by_cases hsame : callbackMP4 s isBytes writeErr = s
  · rw [hsame]
    exact ⟨h, rfl⟩
  · obtain ⟨h1, h2, h3⟩ := h
    unfold callbackMP4 at hsame ⊢
    cases he : s.exit with
    | false => simp [he] at hsame
    | true =>
      have hs : s.sent = [] := by
        by_contra hne
        have := h2 hne
        simp [he] at this
      cases isBytes with
      | false => simp [he] at hsame
      | true =>
        cases writeErr with
        | none => simp [he] at hsame
        | some err =>
          cases hp : s.pc <;>
            simp_all [ExitState.Inv, ExitState.trySend]

theorem Inv_timerFunc (s : ExitState) (h : s.Inv) :
    (timerFunc s).Inv ∧ (timerFunc s).pc = s.pc := by
  by_cases hsame : timerFunc s = s
  · rw [hsame]
    exact ⟨h, rfl⟩
  · obtain ⟨h1, h2, h3⟩ := h
    unfold timerFunc at hsame ⊢
    cases he : s.exit with
    | false => simp [he] at hsame
    | true =>
      have hs : s.sent = [] := by
        by_contra hne
        have := h2 hne
        simp [he] at this
      cases hp : s.pc <;>
        simp_all [ExitState.Inv, ExitState.trySend]

theorem Inv_step (s s2 : ExitState) (t : Step) (h : s.Inv) (hstep : stepMP4 s t = some s2) :
    s2.Inv := by
  cases t with
  | callback isBytes writeErr =>
    simp only [stepMP4, Option.some.injEq] at hstep
    subst hstep
    exact (Inv_callback s isBytes writeErr h).1
  | timerFire =>
    unfold stepMP4 at hstep
    cases ht : s.timer <;> simp [ht] at hstep
    subst hstep
    have := (Inv_timerFunc s h)
    obtain ⟨⟨a, b, c⟩, d⟩ := this
    refine ⟨a, b, ?_⟩
    simpa using c
  | handler ok =>
    obtain ⟨h1, h2, h3⟩ := h
    unfold stepMP4 at hstep
    cases hp : s.pc with
    | adding =>
      cases ok <;> simp [hp] at hstep <;> subst hstep <;>
        simp_all [ExitState.Inv]
    | setup =>
      cases ok <;> simp [hp] at hstep <;> subst hstep <;>
        simp_all [ExitState.Inv]
    | armed =>
      simp [hp] at hstep
      subst hstep
      simp_all [ExitState.Inv]
    | waiting ch =>
      cases ch with
      | false => simp [hp] at hstep
      | true =>
        cases hb : s.buf with
        | nil => simp [hp, hb] at hstep
        | cons v rest =>
          simp [hp, hb] at hstep
          subst hstep
          simp only [hp] at h3
          rw [hb] at h3
          have hl : rest = [] := by
            rw [← h3] at h1
            simpa using h1
          subst hl
          refine ⟨h1, ?_, ?_⟩
          · simpa using h2
          · simp [h3.symm]
    | received v =>
      simp [hp] at hstep
      subst hstep
      simp_all [ExitState.Inv]
    | cleared v =>
      simp [hp] at hstep
      subst hstep
      simp_all [ExitState.Inv]
    | returned => simp [hp] at hstep

theorem Inv_exec (steps : List Step) (s s2 : ExitState) (h : s.Inv)
    (hexec : execMP4 s steps = some s2) : s2.Inv := by
  induction steps generalizing s with
  | nil =>
    simp only [execMP4, Option.some.injEq] at hexec
    subst hexec
    exact h
  | cons t ts ih =>
    unfold execMP4 at hexec
    cases hs : stepMP4 s t with
    | none => simp [hs] at hexec
    | some s1 =>
      simp only [hs] at hexec
      exact ih s1 (Inv_step s s1 t h hs) hexec

/-- C5: in every state reachable from the start of a `handlerMP4` request by runs of
the sample callback, fires of the deadline timer and steps of the handler, at most
one value was ever sent on the exit channel; once a value was sent the variable
`exit` is nil, and a further run of the callback (whatever its write does) or fire of
the timer sends nothing. -/
theorem exit_signal_at_most_once (deadline : Bool) (steps : List Step) (s : ExitState)
    (h : execMP4 (ExitState.init deadline) steps = some s) :
    s.sent.length ≤ 1 ∧
    (s.sent ≠ [] →
      s.exit = false ∧
      (∀ isBytes writeErr, (callbackMP4 s isBytes writeErr).sent = s.sent) ∧
      (timerFunc s).sent = s.sent) := by
  obtain ⟨h1, h2, -⟩ := Inv_exec steps (ExitState.init deadline) s (Inv_init deadline) h
  refine ⟨h1, fun hne => ?_⟩
  have he := h2 hne
  refine ⟨he, ?_, ?_⟩
  · intro isBytes writeErr
    simp [callbackMP4, he]
  · simp [timerFunc, he]

/-- C5, at the race of a failed write and the timer: after the set-up, a sample
whose write fails with `broken pipe` and the fire of the timer, the one value sent
is the write error. -/
theorem exit_signal_at_most_once_witness :
    execMP4 (ExitState.init true)
        [.handler true, .handler true, .callback true (some ⟨"broken pipe"⟩), .timerFire]
      = some { exit := false, buf := [some ⟨"broken pipe"⟩],
               sent := [some ⟨"broken pipe"⟩], timer := .fired, pc := .armed,
               deadline := true, removed := 0 } ∧
    ([some ⟨"broken pipe"⟩] : List (Option GoError)).length ≤ 1 :=
  ⟨rfl,
   (exit_signal_at_most_once true
      [.handler true, .handler true, .callback true (some ⟨"broken pipe"⟩), .timerFire]
      { exit := false, buf := [some ⟨"broken pipe"⟩],
        sent := [some ⟨"broken pipe"⟩], timer := .fired, pc := .armed,
        deadline := true, removed := 0 } rfl).1⟩

/-- Whenever the receive of `handlerMP4` completes, the value it obtained is the one
value that was sent. -/
theorem received_is_the_signal (deadline : Bool) (steps : List Step) (s : ExitState)
    (v : Option GoError) (h : execMP4 (ExitState.init deadline) steps = some s)
    (hp : s.pc = .received v) : s.sent = [v] := by
  obtain ⟨-, -, h3⟩ := Inv_exec steps (ExitState.init deadline) s (Inv_init deadline) h
  simp only [hp] at h3
  exact h3.1

theorem KeyInv_step (s s2 : KeyState) (t : KeyStep) (h : s.Inv)
    (hstep : stepKeyframe s t = some s2) : s2.Inv := by
  obtain ⟨h1, h2, h3⟩ := h
  cases t with
  | callback msg =>
    simp only [stepKeyframe, Option.some.injEq] at hstep
    subst hstep
    cases msg with
    | none => exact ⟨h1, h2, h3⟩
    | some data =>
      cases he : s.exit with
      | false =>
        have e : callbackKeyframe s (some data) = s := by simp [callbackKeyframe, he]
        rw [e]
        exact ⟨h1, h2, h3⟩
      | true =>
        have hs : s.sent = [] := by
          by_contra hne
          have := h2 hne
          simp [he] at this
        cases hp : s.pc <;>
          simp_all [KeyState.Inv, callbackKeyframe]
  | handler ok =>
    unfold stepKeyframe at hstep
    cases hp : s.pc with
    | adding =>
      cases ok <;> simp [hp] at hstep <;> subst hstep <;>
        simp_all [KeyState.Inv]
    | waiting ch =>
      cases ch with
      | false => simp [hp] at hstep
      | true =>
        cases hb : s.buf with
        | nil => simp [hp, hb] at hstep
        | cons v rest =>
          simp [hp, hb] at hstep
          subst hstep
          simp only [hp] at h3
          rw [hb] at h3
          have hl : rest = [] := by
            rw [← h3] at h1
            simpa using h1
          subst hl
          refine ⟨h1, ?_, ?_⟩
          · simpa using h2
          · simp [h3.symm]
    | received v =>
      simp [hp] at hstep
      subst hstep
      simp_all [KeyState.Inv]
    | removed v => simp [hp] at hstep
    | failed => simp [hp] at hstep

/-- Whenever the receive of `handlerKeyframe` completes, the sample it obtained is the
one sample that was sent, the first one delivered to the callback while `exit` was
set. -/
theorem keyframe_received_is_the_sample (steps : List KeyStep) (s : KeyState)
    (data : Bytes) (h : execKeyframe KeyState.init steps = some s)
    (hp : s.pc = .received data) : s.sent = [data] := by
  have hinv : ∀ (steps : List KeyStep) (s0 s : KeyState), s0.Inv →
      execKeyframe s0 steps = some s → s.Inv := by
    intro steps
    induction steps with
    | nil =>
      intro s0 s h0 hexec
      simp only [execKeyframe, Option.some.injEq] at hexec
      subst hexec
      exact h0
    | cons t ts ih =>
      intro s0 s h0 hexec
      unfold execKeyframe at hexec
      cases hs : stepKeyframe s0 t with
      | none => simp [hs] at hexec
      | some s1 =>
        simp only [hs] at hexec
        exact ih s1 s (KeyInv_step s0 s1 t h0 hs) hexec
  have h0 : KeyState.init.Inv := by simp [KeyState.Inv, KeyState.init]
  obtain ⟨-, -, h3⟩ := hinv steps KeyState.init s h0 h
  simp only [hp] at h3
  exact h3.1

theorem stuck_on_nil_MP4 (steps : List Step) (s0 s : ExitState)
    (hp : s0.pc = .waiting false) (he : s0.exit = false)
    (h : execMP4 s0 steps = some s) :
    s.pc = .waiting false ∧ s.exit = false ∧ s.removed = s0.removed ∧
      s.buf = s0.buf ∧ s.sent = s0.sent := by
  induction steps generalizing s0 with
  | nil =>
    simp only [execMP4, Option.some.injEq] at h
    subst h
    exact ⟨hp, he, rfl, rfl, rfl⟩
  | cons t ts ih =>
    unfold execMP4 at h
    cases hs : stepMP4 s0 t with
    | none => simp [hs] at h
    | some s1 =>
      simp only [hs] at h
      have key : s1.pc = .waiting false ∧ s1.exit = false ∧ s1.removed = s0.removed ∧
          s1.buf = s0.buf ∧ s1.sent = s0.sent := by
        cases t with
        | callback isBytes writeErr =>
          simp only [stepMP4, Option.some.injEq] at hs
          subst hs
          simp [callbackMP4, he, hp]
        | timerFire =>
          unfold stepMP4 at hs
          cases ht : s0.timer <;> simp [ht] at hs
          subst hs
          simp [timerFunc, he, hp]
        | handler ok =>
          simp [stepMP4, hp] at hs
      obtain ⟨k1, k2, k3, k4, k5⟩ := key
      obtain ⟨r1, r2, r3, r4, r5⟩ := ih s1 k1 k2 h
      exact ⟨r1, r2, r3.trans k3, r4.trans k4, r5.trans k5⟩

theorem stuck_on_nil_Keyframe (steps : List KeyStep) (s0 s : KeyState)
    (hp : s0.pc = .waiting false) (he : s0.exit = false)
    (h : execKeyframe s0 steps = some s) :
    s.pc = .waiting false ∧ s.exit = false ∧ s.buf = s0.buf ∧ s.sent = s0.sent := by
  induction steps generalizing s0 with
  | nil =>
    simp only [execKeyframe, Option.some.injEq] at h
    subst h
    exact ⟨hp, he, rfl, rfl⟩
  | cons t ts ih =>
    unfold execKeyframe at h
    cases hs : stepKeyframe s0 t with
    | none => simp [hs] at h
    | some s1 =>
      simp only [hs] at h
      have key : s1.pc = .waiting false ∧ s1.exit = false ∧
          s1.buf = s0.buf ∧ s1.sent = s0.sent := by
        cases t with
        | callback msg =>
          simp only [stepKeyframe, Option.some.injEq] at hs
          subst hs
          cases msg <;> simp [callbackKeyframe, he, hp]
        | handler ok =>
          simp [stepKeyframe, hp] at hs
      obtain ⟨k1, k2, k3, k4⟩ := key
      obtain ⟨r1, r2, r3, r4⟩ := ih s1 k1 k2 h
      exact ⟨r1, r2, r3.trans k3, r4.trans k4⟩

/-- When the handler is already inside its receive, a later signal reaches it: in
`handlerMP4` the write error, in `handlerKeyframe` the first sample. -/
theorem handler_receives_when_waiting :
    (execMP4 (ExitState.init false)
        [.handler true, .handler true, .handler true,
          .callback true (some ⟨"broken pipe"⟩), .handler true]
      = some { exit := false, buf := [], sent := [some ⟨"broken pipe"⟩], timer := .unset,
               pc := .received (some ⟨"broken pipe"⟩), deadline := false, removed := 0 }) ∧
    (execMP4 (ExitState.init true)
        [.handler true, .handler true, .handler true, .timerFire, .handler true]
      = some { exit := false, buf := [], sent := [none], timer := .fired,
               pc := .received none, deadline := true, removed := 0 }) ∧
    (execKeyframe KeyState.init
        [.handler true, .callback (some [1, 2, 3]), .callback (some [4, 5]), .handler true]
      = some { exit := false, buf := [], sent := [[1, 2, 3]], pc := .received [1, 2, 3] }) :=
  ⟨rfl, rfl, rfl⟩

/-- C6 (evaluation at the failing schedule): when the write failure (in
`handlerMP4`) or the first sample (in `handlerKeyframe`) arrives before the handler
reads the operand of its receive, the value is sent and stays in the buffer while
the handler waits on the nil channel: from then on no sequence of steps lets the
handler leave line 190 (line 69), and `RemoveConsumer` is not called. -/
theorem handler_waits_on_cleared_exit :
    (∃ s0, execMP4 (ExitState.init false)
          [.handler true, .handler true, .callback true (some ⟨"broken pipe"⟩),
            .handler true] = some s0 ∧
        s0.buf = [some ⟨"broken pipe"⟩] ∧
        ∀ steps s, execMP4 s0 steps = some s →
          s.pc = .waiting false ∧ s.removed = 0 ∧ s.buf = [some ⟨"broken pipe"⟩]) ∧
    (∃ k0, execKeyframe KeyState.init [.callback (some [1, 2, 3]), .handler true] = some k0 ∧
        k0.buf = [[1, 2, 3]] ∧
        ∀ steps k, execKeyframe k0 steps = some k →
          k.pc = .waiting false ∧ k.buf = [[1, 2, 3]]) := by
  constructor
  · refine ⟨{ exit := false, buf := [some ⟨"broken pipe"⟩], sent := [some ⟨"broken pipe"⟩],
              timer := .unset, pc := .waiting false, deadline := false, removed := 0 },
            rfl, rfl, ?_⟩
    intro steps s h
    obtain ⟨r1, -, r3, r4, -⟩ := stuck_on_nil_MP4 steps _ s rfl rfl h
    exact ⟨r1, r3, r4⟩
  · refine ⟨{ exit := false, buf := [[1, 2, 3]], sent := [[1, 2, 3]], pc := .waiting false },
            rfl, rfl, ?_⟩
    intro steps k h
    obtain ⟨r1, -, r3, -⟩ := stuck_on_nil_Keyframe steps _ k rfl rfl h
    exact ⟨r1, r3⟩

/-! ## The request handlers: deregistration -/

theorem call_calls (c : Call) (k : Run) : (call c k).calls = c :: k.calls := rfl

theorem call_returned (c : Call) (k : Run) : (call c k).returned = k.returned := rfl

theorem callIf_calls (b : Bool) (c : Call) (k : Run) :
    (callIf b c k).calls = (if b then [c] else []) ++ k.calls := by
  cases b <;> rfl

theorem callIf_returned (b : Bool) (c : Call) (k : Run) :
    (callIf b c k).returned = k.returned := by
  cases b <;> rfl

theorem ret_eq : ret = ⟨[], true⟩ := rfl

theorem blocked_eq : blocked = ⟨[], false⟩ := rfl

theorem defer_of_returned (c : Call) (k : Run) (h : k.returned = true) :
    defer c k = ⟨k.calls ++ [c], true⟩ := by
  simp [defer, h]

theorem defer_of_blocked (c : Call) (k : Run) (h : k.returned = false) :
    defer c k = k := by
  simp [defer, h]

theorem mp4Stream_no_registry (env : Env) (query : Values) (cons : Consumer) :
    ((mp4Stream env query cons).calls.all fun c => !c.isRegistry) = true := by
  unfold mp4Stream
  cases env.Init with
  | error err => simp [call_calls, ret_eq, Call.isRegistry]
  | ok data =>
    simp only []
    cases env.Write (patch env query data) with
    | some err =>
      by_cases hf : query.Get "filename" = "" <;>
        simp [call_calls, callIf_calls, ret_eq, Call.isRegistry, hf]
    | none =>
      by_cases hf : query.Get "filename" = "" <;>
        cases duration query <;> cases env.exitValue <;>
        simp [call_calls, callIf_calls, ret_eq, blocked_eq, Call.isRegistry, hf]

theorem filter_isRemove_of_no_registry (calls : List Call)
    (h : (calls.all fun c => !c.isRegistry) = true) : calls.filter Call.isRemove = [] := by
  rw [List.filter_eq_nil_iff]
  intro c hc
  have := (List.all_eq_true.mp h) c hc
  cases c <;> simp_all [Call.isRegistry, Call.isRemove]

theorem handlerMP4_redirect (env : Env) (r : HttpRequest) (h : redirects r = true) :
    handlerMP4 env r = ⟨[.redirect (redirectURL r) 301], true⟩ := by
  simp [handlerMP4, h, call, ret, StatusMovedPermanently]

theorem handlerMP4_absent (env : Env) (r : HttpRequest) (h : redirects r = false)
    (hg : env.Get ((Query r.RawQuery).Get "src") = none) :
    handlerMP4 env r
      = ⟨[.streamsGet ((Query r.RawQuery).Get "src") none,
          .httpError env.StreamNotFound 404], true⟩ := by
  simp [handlerMP4, h, hg, call, ret, StatusNotFound]

theorem handlerMP4_rejected (env : Env) (r : HttpRequest) (stream : Nat) (err : GoError)
    (h : redirects r = false)
    (hg : env.Get ((Query r.RawQuery).Get "src") = some stream)
    (ha : env.AddConsumer stream (mp4Consumer env r) = some err) :
    handlerMP4 env r
      = ⟨[.streamsGet ((Query r.RawQuery).Get "src") (some stream),
          .listen (mp4Consumer env r),
          .addConsumer stream (mp4Consumer env r) (some err),
          .httpError err.msg 500], true⟩ := by
  simp [handlerMP4, h, hg, ha, call, ret, StatusInternalServerError]

theorem handlerMP4_added (env : Env) (r : HttpRequest) (stream : Nat)
    (h : redirects r = false)
    (hg : env.Get ((Query r.RawQuery).Get "src") = some stream)
    (ha : env.AddConsumer stream (mp4Consumer env r) = none) :
    handlerMP4 env r
      = ⟨.streamsGet ((Query r.RawQuery).Get "src") (some stream) ::
          .listen (mp4Consumer env r) ::
          .addConsumer stream (mp4Consumer env r) none ::
          (defer (.removeConsumer stream (mp4Consumer env r))
            (mp4Stream env (Query r.RawQuery) (mp4Consumer env r))).calls,
         (mp4Stream env (Query r.RawQuery) (mp4Consumer env r)).returned⟩ := by
  simp only [handlerMP4, h, hg, ha, call]
  simp
  unfold defer
  split <;> simp_all

theorem handlerKeyframe_preflight (env : Env) (r : HttpRequest)
    (h : Contains r.UserAgent " Chrome/" = true ∧ r.Range = none) :
    handlerKeyframe env r
      = ⟨[.headerSet "Content-Type" "video/mp4", .writeHeader 200], true⟩ := by
  simp [handlerKeyframe, h, call, ret]

theorem handlerKeyframe_body (env : Env) (r : HttpRequest)
    (h : ¬ (Contains r.UserAgent " Chrome/" = true ∧ r.Range = none)) :
    handlerKeyframe env r = keyframeBody env r := by
  simp only [handlerKeyframe, h, if_false]

theorem keyframeBody_absent (env : Env) (r : HttpRequest)
    (hg : env.Get ((Query r.RawQuery).Get "src") = none) :
    keyframeBody env r
      = ⟨[.streamsGet ((Query r.RawQuery).Get "src") none,
          .httpError env.StreamNotFound 404], true⟩ := by
  simp [keyframeBody, hg, call, ret, StatusNotFound]

theorem keyframeBody_rejected (env : Env) (r : HttpRequest) (stream : Nat) (err : GoError)
    (hg : env.Get ((Query r.RawQuery).Get "src") = some stream)
    (ha : env.AddConsumer stream (.segment true) = some err) :
    keyframeBody env r
      = ⟨[.streamsGet ((Query r.RawQuery).Get "src") (some stream),
          .listen (.segment true),
          .addConsumer stream (.segment true) (some err),
          .httpError err.msg 500], true⟩ := by
  simp [keyframeBody, hg, ha, call, ret, StatusInternalServerError]

theorem keyframeBody_blocked (env : Env) (r : HttpRequest) (stream : Nat)
    (hg : env.Get ((Query r.RawQuery).Get "src") = some stream)
    (ha : env.AddConsumer stream (.segment true) = none) (hf : env.frame = none) :
    keyframeBody env r
      = ⟨[.streamsGet ((Query r.RawQuery).Get "src") (some stream),
          .listen (.segment true),
          .addConsumer stream (.segment true) none], false⟩ := by
  simp [keyframeBody, hg, ha, hf, call, blocked]

theorem keyframeBody_frame (env : Env) (r : HttpRequest) (stream : Nat) (data : Bytes)
    (hg : env.Get ((Query r.RawQuery).Get "src") = some stream)
    (ha : env.AddConsumer stream (.segment true) = none) (hf : env.frame = some data) :
    keyframeBody env r
      = ⟨[.streamsGet ((Query r.RawQuery).Get "src") (some stream),
          .listen (.segment true),
          .addConsumer stream (.segment true) none,
          .receive,
          .removeConsumer stream (.segment true),
          .headerSet "Content-Length" (Itoa data.length),
          .headerSet "Content-Type" env.MimeType] ++
         (if (Query r.RawQuery).Get "filename" ≠ "" then
            [.headerSet "Content-Disposition"
              (contentDisposition ((Query r.RawQuery).Get "filename"))]
          else []) ++
         [.write data (env.Write data)], true⟩ := by
  by_cases hfn : (Query r.RawQuery).Get "filename" = "" <;>
    simp [keyframeBody, hg, ha, hf, hfn, call, callIf, ret]

/-- The deadline of `duration=2` is two seconds; that of `duration=9223372037` has
wrapped in `int64` to a negative duration, so the timer fires at once; `duration=0`
and `duration=x` set no timer. -/
theorem duration_values :
    duration (Query "src=cam1&duration=2") = some 2000000000 ∧
    duration (Query "src=cam1&duration=9223372037") = some (-9223372036709551616) ∧
    duration (Query "src=cam1&duration=0") = none ∧
    duration (Query "src=cam1&duration=x") = none := by
  refine ⟨by decide, by decide, by decide, by decide⟩

/-- A request whose `AddConsumer` fails returns without `RemoveConsumer`; one whose
lines 143-173 fail returns after the deferred `RemoveConsumer`. -/
theorem setup_failures :
    execMP4 (ExitState.init false) [.handler false]
      = some { exit := true, buf := [], sent := [], timer := .unset, pc := .returned,
               deadline := false, removed := 0 } ∧
    execMP4 (ExitState.init false) [.handler true, .handler false]
      = some { exit := true, buf := [], sent := [], timer := .unset, pc := .returned,
               deadline := false, removed := 1 } :=
  ⟨rfl, rfl⟩

/-- C7: in every execution of `handlerMP4` that returns after a successful
`AddConsumer`, `RemoveConsumer` is called on that stream and consumer exactly once, as
the last call of all; in every execution of `handlerKeyframe` that returns after a
successful `AddConsumer` it is called exactly once and no registry call follows it;
and an execution of either handler in which the stream is absent or `AddConsumer`
fails (more generally, in which no `AddConsumer` succeeded) never calls
`RemoveConsumer`. -/
theorem deregistration (env : Env) (r : HttpRequest) :
    (∀ stream cons, (handlerMP4 env r).returned = true →
      Call.addConsumer stream cons none ∈ (handlerMP4 env r).calls →
      (handlerMP4 env r).calls.filter Call.isRemove = [.removeConsumer stream cons] ∧
      (handlerMP4 env r).calls.getLast? = some (.removeConsumer stream cons)) ∧
    (∀ stream cons, (handlerKeyframe env r).returned = true →
      Call.addConsumer stream cons none ∈ (handlerKeyframe env r).calls →
      (handlerKeyframe env r).calls.filter Call.isRemove = [.removeConsumer stream cons] ∧
      ((afterRemove (handlerKeyframe env r).calls).all fun c => !c.isRegistry) = true) ∧
    ((env.Get ((Query r.RawQuery).Get "src") = none ∨
        (∀ c ∈ (handlerMP4 env r).calls, c.isAdded = false)) →
      (handlerMP4 env r).calls.filter Call.isRemove = []) ∧
    ((env.Get ((Query r.RawQuery).Get "src") = none ∨
        (∀ c ∈ (handlerKeyframe env r).calls, c.isAdded = false)) →
      (handlerKeyframe env r).calls.filter Call.isRemove = []) := by
  have hnr := mp4Stream_no_registry env (Query r.RawQuery) (mp4Consumer env r)
  have hnf := filter_isRemove_of_no_registry _ hnr
  have hnoadd : ∀ stream cons, Call.addConsumer stream cons none ∉
      (mp4Stream env (Query r.RawQuery) (mp4Consumer env r)).calls := by
    intro stream cons hmem
    have := (List.all_eq_true.mp hnr) _ hmem
    simp [Call.isRegistry] at this
  refine ⟨?_, ?_, ?_, ?_⟩
  · intro stream cons hret hadd
    cases hr : redirects r with
    | true =>
      rw [handlerMP4_redirect env r hr] at hadd
      simp at hadd
    | false =>
      cases hg : env.Get ((Query r.RawQuery).Get "src") with
      | none =>
        rw [handlerMP4_absent env r hr hg] at hadd
        simp at hadd
      | some st =>
        cases ha : env.AddConsumer st (mp4Consumer env r) with
        | some err =>
          rw [handlerMP4_rejected env r st err hr hg ha] at hadd
          simp at hadd
        | none =>
          rw [handlerMP4_added env r st hr hg ha] at hret hadd ⊢
          simp only at hret
          rw [defer_of_returned _ _ hret] at hadd ⊢
          simp only [List.mem_cons, List.mem_append, List.mem_singleton, reduceCtorEq,
            false_or, or_false, Call.addConsumer.injEq, and_true] at hadd
          rcases hadd with ⟨h1, h2⟩ | hmem
          · subst h1 h2
            constructor
            · simp [List.filter_cons, Call.isRemove, hnf]
            · have e : Call.streamsGet ((Query r.RawQuery).Get "src") (some stream) ::
                  Call.listen (mp4Consumer env r) ::
                  Call.addConsumer stream (mp4Consumer env r) none ::
                  ((mp4Stream env (Query r.RawQuery) (mp4Consumer env r)).calls ++
                    [Call.removeConsumer stream (mp4Consumer env r)])
                = (Call.streamsGet ((Query r.RawQuery).Get "src") (some stream) ::
                  Call.listen (mp4Consumer env r) ::
                  Call.addConsumer stream (mp4Consumer env r) none ::
                  (mp4Stream env (Query r.RawQuery) (mp4Consumer env r)).calls) ++
                    [Call.removeConsumer stream (mp4Consumer env r)] := by simp
              rw [e, List.getLast?_concat]
          · rcases hmem with hmem | hmem
            · exact absurd hmem (hnoadd stream cons)
            · simp at hmem
  · intro stream cons hret hadd
    by_cases hpre : Contains r.UserAgent " Chrome/" = true ∧ r.Range = none
    · rw [handlerKeyframe_preflight env r hpre] at hadd
      simp at hadd
    · rw [handlerKeyframe_body env r hpre] at hret hadd ⊢
      cases hg : env.Get ((Query r.RawQuery).Get "src") with
      | none =>
        rw [keyframeBody_absent env r hg] at hadd
        simp at hadd
      | some st =>
        cases ha : env.AddConsumer st (.segment true) with
        | some err =>
          rw [keyframeBody_rejected env r st err hg ha] at hadd
          simp at hadd
        | none =>
          cases hf : env.frame with
          | none =>
            rw [keyframeBody_blocked env r st hg ha hf] at hret
            simp at hret
          | some data =>
            rw [keyframeBody_frame env r st data hg ha hf] at hadd ⊢
            by_cases hfn : (Query r.RawQuery).Get "filename" = "" <;>
              simp [hfn] at hadd <;>
              obtain ⟨h1, h2⟩ := hadd <;>
              subst h1 h2 <;>
              simp [hfn, List.filter_cons, Call.isRemove, afterRemove, List.dropWhile,
                Call.isRegistry]
  · intro h
    cases hr : redirects r with
    | true =>
      rw [handlerMP4_redirect env r hr]
      simp [List.filter_cons, Call.isRemove]
    | false =>
      cases hg : env.Get ((Query r.RawQuery).Get "src") with
      | none =>
        rw [handlerMP4_absent env r hr hg]
        simp [List.filter_cons, Call.isRemove]
      | some st =>
        cases ha : env.AddConsumer st (mp4Consumer env r) with
        | some err =>
          rw [handlerMP4_rejected env r st err hr hg ha]
          simp [List.filter_cons, Call.isRemove]
        | none =>
          rcases h with h | h
          · rw [hg] at h
            simp at h
          · rw [handlerMP4_added env r st hr hg ha] at h
            have := h (.addConsumer st (mp4Consumer env r) none) (by simp)
            simp [Call.isAdded] at this
  · intro h
    by_cases hpre : Contains r.UserAgent " Chrome/" = true ∧ r.Range = none
    · rw [handlerKeyframe_preflight env r hpre]
      simp [List.filter_cons, Call.isRemove]
    · rw [handlerKeyframe_body env r hpre] at h ⊢
      cases hg : env.Get ((Query r.RawQuery).Get "src") with
      | none =>
        rw [keyframeBody_absent env r hg]
        simp [List.filter_cons, Call.isRemove]
      | some st =>
        cases ha : env.AddConsumer st (.segment true) with
        | some err =>
          rw [keyframeBody_rejected env r st err hg ha]
          simp [List.filter_cons, Call.isRemove]
        | none =>
          rcases h with h | h
          · rw [hg] at h
            simp at h
          · cases hf : env.frame with
            | none =>
              rw [keyframeBody_blocked env r st hg ha hf]
              simp [List.filter_cons, Call.isRemove]
            | some data =>
              rw [keyframeBody_frame env r st data hg ha hf] at h
              have := h (.addConsumer st (.segment true) none) (by simp)
              simp [Call.isAdded] at this

/-- C7, at a request for the stream `cam1` with a deadline of two seconds (MP4) and
at a keyframe request for `cam1`. -/
theorem deregistration_witness :
    (handlerMP4 envCam1 ⟨"curl/8.0", none, "src=cam1&duration=2", "10.0.0.7"⟩).calls.filter
        Call.isRemove
      = [.removeConsumer 1
          (mp4Consumer envCam1 ⟨"curl/8.0", none, "src=cam1&duration=2", "10.0.0.7"⟩)] ∧
    (handlerKeyframe envCam1 ⟨"curl/8.0", none, "src=cam1", "10.0.0.7"⟩).calls.filter
        Call.isRemove
      = [.removeConsumer 1 (.segment true)] ∧
    (handlerMP4 envCam1 ⟨"curl/8.0", none, "src=nosuch", "10.0.0.7"⟩).calls.filter
        Call.isRemove = [] :=
  ⟨((deregistration envCam1 ⟨"curl/8.0", none, "src=cam1&duration=2", "10.0.0.7"⟩).1
      1 (mp4Consumer envCam1 ⟨"curl/8.0", none, "src=cam1&duration=2", "10.0.0.7"⟩)
      (by decide) (by decide)).1,
   ((deregistration envCam1 ⟨"curl/8.0", none, "src=cam1", "10.0.0.7"⟩).2.1
      1 (.segment true) (by decide) (by decide)).1,
   (deregistration envCam1 ⟨"curl/8.0", none, "src=nosuch", "10.0.0.7"⟩).2.2.1
      (Or.inl (by decide))⟩

/-! ## The request handlers: error responses -/

/-- C8 (as stated, refuted): with `src=nosuch`, which resolves to no stream, the
keyframe endpoint answers a Chrome request without `Range` with an empty 200 and the
stream endpoint answers a Safari request with a 301; neither is a 404. -/
theorem unresolved_src_without_404 :
    envCam1.Get ((Query "src=nosuch").Get "src") = none ∧
    handlerKeyframe envCam1
        ⟨"Mozilla/5.0 Chrome/105.0 Safari/537.36", none, "src=nosuch", "10.0.0.7"⟩
      = ⟨[.headerSet "Content-Type" "video/mp4", .writeHeader 200], true⟩ ∧
    handlerMP4 envCam1
        ⟨"Mozilla/5.0 Version/16.0 Safari/605.1.15", none, "src=nosuch", "10.0.0.7"⟩
      = ⟨[.redirect "stream.m3u8?src=nosuch&mp4" 301], true⟩ := by
  refine ⟨by decide, by decide, by decide⟩

/-- C8 (amended): a keyframe request that is not the Chrome preflight, and a stream
request that is not redirected, is answered with `http.Error` 404 and the fixed
stream-not-found text when `src` resolves to no stream, and with `http.Error` 500 and
the error's text when the stream exists and `AddConsumer` (or, for `handlerMP4`,
`Init`) returns an error. -/
theorem error_responses (env : Env) (r : HttpRequest) :
    (¬ (Contains r.UserAgent " Chrome/" = true ∧ r.Range = none) →
      (env.Get ((Query r.RawQuery).Get "src") = none →
        handlerKeyframe env r
          = ⟨[.streamsGet ((Query r.RawQuery).Get "src") none,
              .httpError env.StreamNotFound 404], true⟩) ∧
      (∀ stream err, env.Get ((Query r.RawQuery).Get "src") = some stream →
        env.AddConsumer stream (.segment true) = some err →
        handlerKeyframe env r
          = ⟨[.streamsGet ((Query r.RawQuery).Get "src") (some stream),
              .listen (.segment true),
              .addConsumer stream (.segment true) (some err),
              .httpError err.msg 500], true⟩)) ∧
    (redirects r = false →
      (env.Get ((Query r.RawQuery).Get "src") = none →
        handlerMP4 env r
          = ⟨[.streamsGet ((Query r.RawQuery).Get "src") none,
              .httpError env.StreamNotFound 404], true⟩) ∧
      (∀ stream err, env.Get ((Query r.RawQuery).Get "src") = some stream →
        env.AddConsumer stream (mp4Consumer env r) = some err →
        handlerMP4 env r
          = ⟨[.streamsGet ((Query r.RawQuery).Get "src") (some stream),
              .listen (mp4Consumer env r),
              .addConsumer stream (mp4Consumer env r) (some err),
              .httpError err.msg 500], true⟩) ∧
      (∀ stream err, env.Get ((Query r.RawQuery).Get "src") = some stream →
        env.AddConsumer stream (mp4Consumer env r) = none →
        env.Init = .error err →
        handlerMP4 env r
          = ⟨[.streamsGet ((Query r.RawQuery).Get "src") (some stream),
              .listen (mp4Consumer env r),
              .addConsumer stream (mp4Consumer env r) none,
              .consInit (mp4Consumer env r) (some err),
              .httpError err.msg 500,
              .removeConsumer stream (mp4Consumer env r)], true⟩)) := by
  constructor
  · intro hpre
    rw [handlerKeyframe_body env r hpre]
    exact ⟨keyframeBody_absent env r, fun stream err hg ha =>
      keyframeBody_rejected env r stream err hg ha⟩
  · intro hr
    refine ⟨handlerMP4_absent env r hr, fun stream err hg ha =>
      handlerMP4_rejected env r stream err hr hg ha, ?_⟩
    intro stream err hg ha hi
    rw [handlerMP4_added env r stream hr hg ha]
    simp [mp4Stream, hi, defer, call, ret, StatusInternalServerError]

/-- C8 (amended), at requests for an unknown stream, with a rejecting registry and
with a failing `Init`. -/
theorem error_responses_witness :
    handlerKeyframe envCam1 ⟨"curl/8.0", none, "src=nosuch", "10.0.0.7"⟩
      = ⟨[.streamsGet "nosuch" none, .httpError "stream not found" 404], true⟩ ∧
    handlerMP4 envCam1 ⟨"curl/8.0", none, "src=nosuch", "10.0.0.7"⟩
      = ⟨[.streamsGet "nosuch" none, .httpError "stream not found" 404], true⟩ ∧
    handlerKeyframe envRejecting ⟨"curl/8.0", none, "src=cam1", "10.0.0.7"⟩
      = ⟨[.streamsGet "cam1" (some 1), .listen (.segment true),
          .addConsumer 1 (.segment true) (some ⟨"codecs not matched"⟩),
          .httpError "codecs not matched" 500], true⟩ ∧
    handlerMP4 envInitFailing ⟨"curl/8.0", none, "src=cam1", "10.0.0.7"⟩
      = ⟨[.streamsGet "cam1" (some 1),
          .listen (.consumer "MP4/HTTP" "10.0.0.7" "curl/8.0" 0),
          .addConsumer 1 (.consumer "MP4/HTTP" "10.0.0.7" "curl/8.0" 0) none,
          .consInit (.consumer "MP4/HTTP" "10.0.0.7" "curl/8.0" 0) (some ⟨"init failed"⟩),
          .httpError "init failed" 500,
          .removeConsumer 1 (.consumer "MP4/HTTP" "10.0.0.7" "curl/8.0" 0)], true⟩ :=
  ⟨((error_responses envCam1 ⟨"curl/8.0", none, "src=nosuch", "10.0.0.7"⟩).1
      (by decide)).1 (by decide),
   ((error_responses envCam1 ⟨"curl/8.0", none, "src=nosuch", "10.0.0.7"⟩).2
      (by decide)).1 (by decide),
   ((error_responses envRejecting ⟨"curl/8.0", none, "src=cam1", "10.0.0.7"⟩).1
      (by decide)).2 1 ⟨"codecs not matched"⟩ (by decide) (by decide),
   ((error_responses envInitFailing ⟨"curl/8.0", none, "src=cam1", "10.0.0.7"⟩).2
      (by decide)).2.2 1 ⟨"init failed"⟩ (by decide) (by decide) rfl⟩

/-! ## `handlerKeyframe`: the Chrome preflight -/

/-- C9: a keyframe request whose User-Agent contains ` Chrome/` and that has no
`Range` header is answered with status 200 and no body, and nothing else is called
(no stream lookup, no consumer); every other request starts with the stream lookup,
and when the stream exists, `AddConsumer` succeeds and a sample is received, the
response carries `Content-Length` equal to the length of that sample. -/
theorem keyframe_preflight (env : Env) (r : HttpRequest) :
    (Contains r.UserAgent " Chrome/" = true → r.Range = none →
      handlerKeyframe env r
        = ⟨[.headerSet "Content-Type" "video/mp4", .writeHeader 200], true⟩) ∧
    (r.Range ≠ none ∨ Contains r.UserAgent " Chrome/" = false →
      (handlerKeyframe env r).calls.head?
        = some (.streamsGet ((Query r.RawQuery).Get "src")
            (env.Get ((Query r.RawQuery).Get "src"))) ∧
      ∀ stream data, env.Get ((Query r.RawQuery).Get "src") = some stream →
        env.AddConsumer stream (.segment true) = none → env.frame = some data →
        handlerKeyframe env r
          = ⟨[.streamsGet ((Query r.RawQuery).Get "src") (some stream),
              .listen (.segment true),
              .addConsumer stream (.segment true) none,
              .receive,
              .removeConsumer stream (.segment true),
              .headerSet "Content-Length" (Itoa data.length),
              .headerSet "Content-Type" env.MimeType] ++
             (if (Query r.RawQuery).Get "filename" ≠ "" then
                [.headerSet "Content-Disposition"
                  (contentDisposition ((Query r.RawQuery).Get "filename"))]
              else []) ++
             [.write data (env.Write data)], true⟩) := by
  constructor
  · intro h1 h2
    exact handlerKeyframe_preflight env r ⟨h1, h2⟩
  · intro h
    have hpre : ¬ (Contains r.UserAgent " Chrome/" = true ∧ r.Range = none) := by
      rintro ⟨h1, h2⟩
      rcases h with h | h
      · exact h h2
      · rw [h1] at h
        exact Bool.noConfusion h
    rw [handlerKeyframe_body env r hpre]
    constructor
    · cases hg : env.Get ((Query r.RawQuery).Get "src") with
      | none => rw [keyframeBody_absent env r hg]; rfl
      | some st =>
        unfold keyframeBody
        simp [hg, call]
    · intro stream data hg ha hf
      exact keyframeBody_frame env r stream data hg ha hf

/-- C9, at the two requests of a Chrome client: without `Range`, and with
`Range: bytes=0-`. -/
theorem keyframe_preflight_witness :
    handlerKeyframe envCam1 ⟨"Mozilla/5.0 Chrome/105.0", none, "src=cam1", "10.0.0.7"⟩
      = ⟨[.headerSet "Content-Type" "video/mp4", .writeHeader 200], true⟩ ∧
    handlerKeyframe envCam1
        ⟨"Mozilla/5.0 Chrome/105.0", some ["bytes=0-"], "src=cam1", "10.0.0.7"⟩
      = ⟨[.streamsGet "cam1" (some 1), .listen (.segment true),
          .addConsumer 1 (.segment true) none, .receive,
          .removeConsumer 1 (.segment true),
          .headerSet "Content-Length" "3", .headerSet "Content-Type" "video/mp4",
          .write [1, 2, 3] none], true⟩ :=
  ⟨(keyframe_preflight envCam1
      ⟨"Mozilla/5.0 Chrome/105.0", none, "src=cam1", "10.0.0.7"⟩).1 (by decide) rfl,
   ((keyframe_preflight envCam1
      ⟨"Mozilla/5.0 Chrome/105.0", some ["bytes=0-"], "src=cam1", "10.0.0.7"⟩).2
      (Or.inl (by decide))).2 1 [1, 2, 3] (by decide) (by decide) rfl⟩

/-! ## `handlerMP4`: the redirect -/

theorem splitOn_append (sep : Char) (a b : List Char) :
    splitOn sep (a ++ sep :: b) = splitOn sep a ++ splitOn sep b := by
  induction a with
  | nil => simp [splitOn]
  | cons c cs ih =>
    by_cases hc : c = sep
    · simp [splitOn, hc, ih]
    · have hne := splitOn_ne_nil sep cs
      cases hs : splitOn sep cs with
      | nil => exact absurd hs hne
      | cons x xs =>
        have e1 : splitOn sep (c :: (cs ++ sep :: b))
            = (match splitOn sep (cs ++ sep :: b) with
                | [] => [[c]]
                | h :: t => (c :: h) :: t) := by
          rw [splitOn, if_neg hc]
        have e2 : splitOn sep (c :: cs)
            = (match splitOn sep cs with
                | [] => [[c]]
                | h :: t => (c :: h) :: t) := by
          rw [splitOn, if_neg hc]
        rw [List.cons_append, e1, e2, ih, hs]
        rfl

theorem Query_append_mp4 (raw : String) :
    Query (raw ++ "&mp4") = Query raw ++ [("mp4", "")] := by
  have h : (raw ++ "&mp4").data = raw.data ++ '&' :: "mp4".data := by
    simp
  have hp : (splitOn '&' "mp4".data).filterMap parsePair = [("mp4", "")] := by decide
  unfold Query
  rw [h, splitOn_append, List.filterMap_append, hp]

theorem Query_redirectQuery (r : HttpRequest) :
    Query (redirectQuery r)
      = Query r.RawQuery ++ (if (Query r.RawQuery).Has "mp4" then [] else [("mp4", "")]) := by
  unfold redirectQuery
  cases h : (Query r.RawQuery).Has "mp4" with
  | true => simp
  | false => simp [Query_append_mp4]

/-- C10: `handlerMP4` answers with a 301 redirect, and makes no other call, exactly
when the User-Agent contains ` Safari/`, does not contain ` Chrome/` and the query
has no `duration` key; otherwise it makes no redirect and starts with the stream
lookup.  The target is `stream.m3u8?` followed by the raw query, with `&mp4`
appended exactly when the query has no `mp4` key; the query of the target holds every
parameter of the original query and has an `mp4` key. -/
theorem mp4_redirect (env : Env) (r : HttpRequest) :
    ((Contains r.UserAgent " Safari/" = true ∧ Contains r.UserAgent " Chrome/" = false ∧
        (Query r.RawQuery).Has "duration" = false) →
      handlerMP4 env r
        = ⟨[.redirect ("stream.m3u8?" ++ r.RawQuery ++
              (if (Query r.RawQuery).Has "mp4" then "" else "&mp4")) 301], true⟩) ∧
    (¬ (Contains r.UserAgent " Safari/" = true ∧ Contains r.UserAgent " Chrome/" = false ∧
        (Query r.RawQuery).Has "duration" = false) →
      (∀ url code, Call.redirect url code ∉ (handlerMP4 env r).calls) ∧
      (handlerMP4 env r).calls.head?
        = some (.streamsGet ((Query r.RawQuery).Get "src")
            (env.Get ((Query r.RawQuery).Get "src")))) ∧
    ("stream.m3u8?" ++ r.RawQuery ++ (if (Query r.RawQuery).Has "mp4" then "" else "&mp4")
        = "stream.m3u8?" ++ redirectQuery r ∧
      (Query (redirectQuery r)).Has "mp4" = true ∧
      ∀ kv ∈ Query r.RawQuery, kv ∈ Query (redirectQuery r)) := by
  have hurl : redirectURL r = "stream.m3u8?" ++ r.RawQuery ++
      (if (Query r.RawQuery).Has "mp4" then "" else "&mp4") := by
    unfold redirectURL
    cases (Query r.RawQuery).Has "mp4" <;> simp
  refine ⟨?_, ?_, ?_, ?_, ?_⟩
  · rintro ⟨h1, h2, h3⟩
    have hr : redirects r = true := by simp [redirects, h1, h2, h3]
    rw [handlerMP4_redirect env r hr, hurl]
  · intro hn
    have hr : redirects r = false := by
      cases hred : redirects r with
      | false => rfl
      | true =>
        exfalso
        apply hn
        simp only [redirects, Bool.and_eq_true, Bool.not_eq_true'] at hred
        exact ⟨hred.1.1, hred.1.2, hred.2⟩
    have hnr := mp4Stream_no_registry env (Query r.RawQuery) (mp4Consumer env r)
    cases hg : env.Get ((Query r.RawQuery).Get "src") with
    | none =>
      rw [handlerMP4_absent env r hr hg]
      simp
    | some st =>
      cases ha : env.AddConsumer st (mp4Consumer env r) with
      | some err =>
        rw [handlerMP4_rejected env r st err hr hg ha]
        simp
      | none =>
        rw [handlerMP4_added env r st hr hg ha]
        refine ⟨?_, by simp⟩
        intro url code hmem
        have hin : Call.redirect url code ∉
            (mp4Stream env (Query r.RawQuery) (mp4Consumer env r)).calls := by
          unfold mp4Stream
          cases env.Init with
          | error err => simp [call_calls, ret_eq]
          | ok data =>
            simp only []
            cases env.Write (patch env (Query r.RawQuery) data) with
            | some err =>
              by_cases hf : (Query r.RawQuery).Get "filename" = "" <;>
                simp [call_calls, callIf_calls, ret_eq, hf]
            | none =>
              by_cases hf : (Query r.RawQuery).Get "filename" = "" <;>
                cases duration (Query r.RawQuery) <;> cases env.exitValue <;>
                simp [call_calls, callIf_calls, ret_eq, blocked_eq, hf]
        simp only [List.mem_cons, reduceCtorEq, false_or] at hmem
        unfold defer at hmem
        split at hmem
        · simp only [List.mem_append, List.mem_singleton, reduceCtorEq, or_false] at hmem
          exact hin hmem
        · exact hin hmem
  · unfold redirectQuery
    cases (Query r.RawQuery).Has "mp4" <;> simp [String.append_assoc]
  · rw [Query_redirectQuery]
    cases h : (Query r.RawQuery).Has "mp4" with
    | true => simpa using h
    | false => simp [Values.Has]
  · intro kv hkv
    rw [Query_redirectQuery]
    exact List.mem_append_left _ hkv

/-- C10, at a Safari request without `duration`, a Safari request that already has
`mp4`, and a Safari request with `duration`. -/
theorem mp4_redirect_witness :
    handlerMP4 envCam1
        ⟨"Mozilla/5.0 Version/16.0 Safari/605.1.15", none, "src=cam1", "10.0.0.7"⟩
      = ⟨[.redirect "stream.m3u8?src=cam1&mp4" 301], true⟩ ∧
    handlerMP4 envCam1
        ⟨"Mozilla/5.0 Version/16.0 Safari/605.1.15", none, "src=cam1&mp4=flac", "10.0.0.7"⟩
      = ⟨[.redirect "stream.m3u8?src=cam1&mp4=flac" 301], true⟩ ∧
    (handlerMP4 envCam1
        ⟨"Mozilla/5.0 Version/16.0 Safari/605.1.15", none, "src=cam1&duration=2",
          "10.0.0.7"⟩).calls.head?
      = some (.streamsGet "cam1" (some 1)) :=
  ⟨(mp4_redirect envCam1
      ⟨"Mozilla/5.0 Version/16.0 Safari/605.1.15", none, "src=cam1", "10.0.0.7"⟩).1
      (by decide),
   (mp4_redirect envCam1
      ⟨"Mozilla/5.0 Version/16.0 Safari/605.1.15", none, "src=cam1&mp4=flac", "10.0.0.7"⟩).1
      (by decide),
   ((mp4_redirect envCam1
      ⟨"Mozilla/5.0 Version/16.0 Safari/605.1.15", none, "src=cam1&duration=2",
        "10.0.0.7"⟩).2.1 (by decide)).2⟩

end Go2rtc
